import Mathlib

/-!
# Video-Vault `go-server`: the session-authentication core

A shallow embedding of `internal/config`, `internal/utils` (JWT and cookies),
`internal/models`, `internal/dto`, `internal/repository`, `internal/service`,
`internal/middleware`, `internal/handler` and the `/api/auth` routes of
`internal/router`, followed by theorems about them.

Conventions of the embedding.

* A Go `string` is a Lean `String`; the strings met here come out of JSON
  decoding, cookies and the environment, so a rune is a `Char`.
* `time.Time` is an `Int`, nanoseconds since the Unix epoch; `time.Duration` is an
  `Int`, nanoseconds, wrapped to 64 bits where the source multiplies durations.
* A Go `error` is a `GoError`: what `errors.Is(err, gorm.ErrRecordNotFound)` and
  `err.Error()` can tell about it.
* Third-party packages (`crypto/hmac`, `golang-jwt`, `bcrypt`, `unicode`,
  `validator`, `net/url`, `gorm` over PostgreSQL) are not part of the repository.  The
  primitives that cannot be written down here are the fields of `Lib`;
  whatever a theorem assumes about them is a named hypothesis of that theorem.
* The clock, `uuid.New()` and the bcrypt salt are explicit inputs (`World`);
  one request reads the clock once.
* The package-level variables `config.AppConfig` and `database.DB` are explicit
  arguments; `database.DB` is threaded through as state.
-/

namespace VideoVault

/-! ## Basic types -/

/-- A `uuid.UUID`, read as a number; `uuid.Nil` is `0`. -/
abbrev UUID := Nat

/-- Nanoseconds since the Unix epoch (`time.Time`). -/
abbrev Time := Int

/-- Nanoseconds (`time.Duration`). -/
abbrev Duration := Int

/-- One second, `time.Second`. -/
def Second : Duration := 1000000000

/-- One minute, `time.Minute`. -/
def Minute : Duration := 60 * Second

/-- One hour, `time.Hour`. -/
def Hour : Duration := 60 * Minute

/-- Two's-complement wrap of a 64-bit signed product. -/
def wrapInt64 (x : Int) : Int := (x + 2 ^ 63) % 2 ^ 64 - 2 ^ 63

/-- A Go `error` as the code can observe it: `gorm.ErrRecordNotFound`, or any
other error with the text `Error()` returns. -/
inductive GoError where
  | recordNotFound
  | other (msg : String)
  deriving DecidableEq, Repr

/-- The method `Error()`. -/
def GoError.Error : GoError → String
  | .recordNotFound => "record not found"
  | .other msg => msg

/-- The test `errors.Is(err, gorm.ErrRecordNotFound)`. -/
def GoError.isRecordNotFound : GoError → Bool
  | .recordNotFound => true
  | .other _ => false

/-- The function `errors.New`. -/
def errorsNew (msg : String) : GoError := .other msg

/-! ## `utils.Claims` and the JWT library interface -/

/-- The struct `utils.Claims`: `sub`, `email` and the registered claims the
validator of `golang-jwt/v5` looks at (`exp`, `nbf`, `iat`), each a
`NumericDate` in whole seconds, absent when `nil`. -/
structure Claims where
  UserID : UUID
  Email : String
  ExpiresAt : Option Int
  NotBefore : Option Int
  IssuedAt : Option Int
  deriving DecidableEq, Repr

/-- What `jwt.Parser.ParseUnverified` and the decoding of the third segment
recover from a compact token: the header's `alg`, the claims, the text that was
signed (the first two segments) and the signature bytes. -/
structure ParsedToken where
  alg : String
  claims : Claims
  signingInput : String
  sig : String
  deriving DecidableEq, Repr

/-- Primitives of the third-party packages the code calls. -/
structure Lib where
  /-- The function `unicode.ToLower`, consulted for runes outside ASCII. -/
  unicodeToLower : Char → Char
  /-- The function `unicode.IsSpace`, consulted for runes outside ASCII. -/
  unicodeIsSpace : Char → Bool
  /-- The method `uuid.UUID.String`. -/
  uuidString : UUID → String
  /-- The method `time.Time.Format` (time, layout). -/
  timeFormat : Time → String → String
  /-- The `email` tag of `validator/v10`. -/
  isEmail : String → Bool
  /-- HMAC-SHA256 of a message (second argument) under a key (first). -/
  hmacSHA256 : String → String → String
  /-- Verification by a registered signing method other than HS256, given a
  `[]byte` key, the signed text and the signature; `none` when no method is
  registered under that `alg`. -/
  otherMethod : String → Option (String → String → String → Bool)
  /-- Text signed for a set of claims under the HS256 header:
  `base64url(header) ++ "." ++ base64url(claims)`. -/
  signingString : Claims → String
  /-- Unpadded base64url encoding of one segment. -/
  encodeSegment : String → String
  /-- Splitting a compact token at its dots and decoding the three segments;
  `none` when the string is not such a token. -/
  parseUnverified : String → Option ParsedToken
  /-- The function `bcrypt.GenerateFromPassword` (password, cost, salt drawn). -/
  bcryptGenerate : String → Nat → String → Except GoError String
  /-- Whether `bcrypt.CompareHashAndPassword` (hash, password) returns `nil`. -/
  bcryptCompare : String → String → Bool
  /-- The function `url.QueryUnescape`; `none` when it returns an error, and with
  it the empty string. -/
  queryUnescape : String → Option String

/-- The constant `bcrypt.DefaultCost`. -/
def bcryptDefaultCost : Nat := 10

/-- The function `strings.ToLower`: ASCII letters are lowered as such, any other
rune goes through `unicode.ToLower`. -/
def ToLower (L : Lib) (s : String) : String :=
  String.mk (s.toList.map (fun c => if c.toNat < 128 then c.toLower else L.unicodeToLower c))

/-- White space as `strings.TrimSpace` sees it: tab, line feed, vertical tab,
form feed, carriage return and space in ASCII, `unicode.IsSpace` beyond. -/
def isSpace (L : Lib) (c : Char) : Bool :=
  if c.toNat < 128 then
    c = '\t' || c = '\n' || c.toNat = 11 || c.toNat = 12 || c = '\r' || c = ' '
  else L.unicodeIsSpace c

/-- The function `strings.TrimSpace`. -/
def TrimSpace (L : Lib) (s : String) : String :=
  String.mk ((s.toList.dropWhile (isSpace L)).reverse.dropWhile (isSpace L)).reverse

/-- What a request reads from outside the program. -/
structure World where
  /-- The reading of `time.Now()`. -/
  now : Time
  /-- The value `uuid.New()` returns. -/
  newUUID : UUID
  /-- The salt `bcrypt.GenerateFromPassword` draws. -/
  salt : String

/-! ## `internal/config` -/

namespace config

/-- The struct `config.ServerConfig`. -/
structure ServerConfig where
  Port : Int
  Env : String
  AssetsURL : String
  deriving DecidableEq, Repr

/-- The struct `config.DatabaseConfig`. -/
structure DatabaseConfig where
  Host : String
  Port : Int
  User : String
  Password : String
  DBName : String
  deriving DecidableEq, Repr

/-- The struct `config.JWTConfig`. -/
structure JWTConfig where
  Secret : String
  RefreshSecret : String
  ExpiresIn : Duration
  RefreshExpires : Duration
  deriving DecidableEq, Repr

/-- The struct `config.CORSConfig`. -/
structure CORSConfig where
  Origin : String
  Credentials : Bool
  deriving DecidableEq, Repr

/-- The struct `config.Config`. -/
structure Config where
  Server : ServerConfig
  Database : DatabaseConfig
  JWT : JWTConfig
  CORS : CORSConfig
  deriving DecidableEq, Repr

/-- The function `strconv.Atoi` on a 64-bit platform: an optional sign, then
one or more decimal digits, in range. -/
def Atoi (s : String) : Option Int :=
  let digits : List Char → Option Int := fun ds =>
    if ds.isEmpty || !ds.all Char.isDigit then none
    else some (ds.foldl (fun acc c => 10 * acc + ((c.toNat : Int) - 48)) 0)
  let signed : Option Int :=
    match s.toList with
    | '-' :: ds => (digits ds).map (fun n => -n)
    | '+' :: ds => digits ds
    | ds => digits ds
  match signed with
  | some v => if -(2 ^ 63) ≤ v ∧ v < 2 ^ 63 then some v else none
  | none => none

/-- The function `config.getEnv`; `env` is `os.Getenv` once `godotenv.Load` has
run. -/
def getEnv (env : String → String) (key defaultValue : String) : String :=
  if env key ≠ "" then env key else defaultValue

/-- The function `config.getEnvAsInt`. -/
def getEnvAsInt (env : String → String) (key : String) (defaultValue : Int) : Int :=
  match Atoi (env key) with
  | some value => value
  | none => defaultValue

/-- The function `config.parseDuration`. -/
def parseDuration (s : String) : Duration :=
  if s.utf8ByteSize < 2 then Hour
  else
    let unit := s.toList.getLast?
    let valueStr := String.mk s.toList.dropLast
    match Atoi valueStr with
    | none => Hour
    | some value =>
      if unit = some 's' then wrapInt64 (value * Second)
      else if unit = some 'm' then wrapInt64 (value * Minute)
      else if unit = some 'h' then wrapInt64 (value * Hour)
      else if unit = some 'd' then wrapInt64 (wrapInt64 (value * 24) * Hour)
      else Hour

/-- The function `config.Load`: the value it stores in `config.AppConfig`. -/
def Load (env : String → String) : Config :=
  { Server :=
      { Port := getEnvAsInt env "SERVER_PORT" 8000
        Env := getEnv env "NODE_ENV" "development"
        AssetsURL := getEnv env "ASSETS_URL" "http://localhost:8000" }
    Database :=
      { Host := getEnv env "DB_HOST" "postgres"
        Port := getEnvAsInt env "DB_PORT" 5432
        User := getEnv env "POSTGRES_USER" "postgres"
        Password := getEnv env "POSTGRES_PASSWORD" "postgres"
        DBName := getEnv env "POSTGRES_DB" "video_app" }
    JWT :=
      { Secret := getEnv env "JWT_SECRET" "your-secret-key"
        RefreshSecret := getEnv env "JWT_REFRESH_SECRET" "your-refresh-secret-key"
        ExpiresIn := parseDuration (getEnv env "JWT_EXPIRES_IN" "1h")
        RefreshExpires := parseDuration (getEnv env "JWT_REFRESH_EXPIRES_IN" "7d") }
    CORS :=
      { Origin := getEnv env "CORS_ORIGIN" "*"
        Credentials := true } }

end config

open config (Config JWTConfig)

/-! ## `golang-jwt/v5` as the code uses it -/

namespace jwt

/-- The sentinel errors of `golang-jwt/v5` a parse can end in. -/
inductive ParseError where
  | ErrTokenMalformed
  | ErrTokenUnverifiable
  | ErrTokenSignatureInvalid
  | ErrTokenExpired
  | ErrTokenNotValidYet
  deriving DecidableEq, Repr

/-- The constructor `jwt.NewNumericDate`: the time truncated to the second
(`TimePrecision`), in seconds. -/
def NewNumericDate (t : Time) : Int := t / Second

/-- The instant a `NumericDate` stands for. -/
def NumericDate.toTime (d : Int) : Time := d * Second

/-- The method `Token.SignedString` of a token built by
`jwt.NewWithClaims(jwt.SigningMethodHS256, claims)`, with a `[]byte` key. -/
def SignedString (L : Lib) (claims : Claims) (key : String) : Except GoError String :=
  let sstr := L.signingString claims
  .ok (sstr ++ "." ++ L.encodeSegment (L.hmacSHA256 key sstr))

/-- The method `Verify` of the signing method registered under `alg`, for a
`[]byte` key; `none` when there is no such method. -/
def methodVerify (L : Lib) (alg key signingInput sig : String) : Option Bool :=
  if alg = "HS256" then some (decide (sig = L.hmacSHA256 key signingInput))
  else (L.otherMethod alg).map (fun verify => verify key signingInput sig)

/-- The default `Validator.Validate`: `exp` must lie after `now`, `nbf` must not;
an absent claim passes and `iat` is not checked. -/
def validateClaims (claims : Claims) (now : Time) : Except ParseError Unit :=
  match claims.ExpiresAt with
  | some exp =>
    if now < NumericDate.toTime exp then
      match claims.NotBefore with
      | some nbf => if now < NumericDate.toTime nbf then .error .ErrTokenNotValidYet else .ok ()
      | none => .ok ()
    else .error .ErrTokenExpired
  | none =>
    match claims.NotBefore with
    | some nbf => if now < NumericDate.toTime nbf then .error .ErrTokenNotValidYet else .ok ()
    | none => .ok ()

/-- The function `jwt.ParseWithClaims` with a key function that returns `key`:
the claims of a token that parsed, verified and validated. -/
def ParseWithClaims (L : Lib) (tokenString key : String) (now : Time) :
    Except ParseError Claims :=
  match L.parseUnverified tokenString with
  | none => .error .ErrTokenMalformed
  | some tok =>
    match methodVerify L tok.alg key tok.signingInput tok.sig with
    | none => .error .ErrTokenUnverifiable
    | some false => .error .ErrTokenSignatureInvalid
    | some true =>
      match validateClaims tok.claims now with
      | .error e => .error e
      | .ok () => .ok tok.claims

end jwt

/-! ## `internal/utils/jwt.go` -/

namespace utils

/-- The function `utils.GenerateAccessToken`. -/
def GenerateAccessToken (L : Lib) (cfg : Config) (now : Time) (userID : UUID)
    (email : String) : Except GoError String :=
  let claims : Claims :=
    { UserID := userID
      Email := email
      ExpiresAt := some (jwt.NewNumericDate (now + cfg.JWT.ExpiresIn))
      NotBefore := none
      IssuedAt := some (jwt.NewNumericDate now) }
  jwt.SignedString L claims cfg.JWT.Secret

/-- The function `utils.GenerateRefreshToken`. -/
def GenerateRefreshToken (L : Lib) (cfg : Config) (now : Time) (userID : UUID)
    (email : String) : Except GoError String :=
  let claims : Claims :=
    { UserID := userID
      Email := email
      ExpiresAt := some (jwt.NewNumericDate (now + cfg.JWT.RefreshExpires))
      NotBefore := none
      IssuedAt := some (jwt.NewNumericDate now) }
  jwt.SignedString L claims cfg.JWT.RefreshSecret

/-- The function `utils.ValidateToken`. -/
def ValidateToken (L : Lib) (cfg : Config) (now : Time) (tokenString : String)
    (isRefresh : Bool) : Except jwt.ParseError Claims :=
  let secret := if isRefresh then cfg.JWT.RefreshSecret else cfg.JWT.Secret
  match jwt.ParseWithClaims L tokenString secret now with
  | .error err => .error err
  | .ok claims => .ok claims

end utils

/-! ## `internal/models/user.go` -/

namespace models

/-- The zero `time.Time` (1 January of year 1, UTC). -/
def zeroTime : Time := -62135596800 * Second

/-- The struct `models.User`. -/
structure User where
  ID : UUID
  Name : String
  Email : String
  Password : String
  Avatar : Option String
  Role : String
  CreatedAt : Time
  UpdatedAt : Time
  deriving DecidableEq, Repr

/-- The method `User.HashPassword`: the user after the call and the error
returned.  `u.Password[0] == '$'` compares the first byte, which is `$` exactly
when the first rune is. -/
def User.HashPassword (L : Lib) (salt : String) (u : User) : User × Option GoError :=
  if u.Password = "" ∨ (0 < u.Password.utf8ByteSize ∧ u.Password.toList.head? = some '$') then
    (u, none)
  else
    match L.bcryptGenerate u.Password bcryptDefaultCost salt with
    | .error err => (u, some err)
    | .ok hashedPassword => ({ u with Password := hashedPassword }, none)

/-- The hook `User.BeforeCreate`. -/
def User.BeforeCreate (L : Lib) (w : World) (u : User) : User × Option GoError :=
  let u1 := if u.ID = 0 then { u with ID := w.newUUID } else u
  User.HashPassword L w.salt u1

/-- The method `User.ComparePassword`. -/
def User.ComparePassword (L : Lib) (u : User) (plainPassword : String) : Bool :=
  L.bcryptCompare u.Password plainPassword

end models

open models (User)

/-! ## `internal/dto/auth_dto.go` -/

namespace dto

/-- The struct `dto.RegisterRequest`. -/
structure RegisterRequest where
  Name : String
  Email : String
  Password : String
  deriving DecidableEq, Repr

/-- The struct `dto.ValidationError`. -/
structure ValidationError where
  Field : String
  Message : String
  deriving DecidableEq, Repr

/-- The method `ValidationError.Error`. -/
def ValidationError.Error (e : ValidationError) : String := e.Message

/-- Whether the regular expression `[A-Z]` matches somewhere in the string. -/
def hasUpper (password : String) : Bool :=
  password.toList.any (fun c => decide ('A' ≤ c ∧ c ≤ 'Z'))

/-- Whether the regular expression `[a-z]` matches somewhere in the string. -/
def hasLower (password : String) : Bool :=
  password.toList.any (fun c => decide ('a' ≤ c ∧ c ≤ 'z'))

/-- Whether the regular expression `[0-9]` matches somewhere in the string. -/
def hasNumber (password : String) : Bool :=
  password.toList.any (fun c => decide ('0' ≤ c ∧ c ≤ '9'))

/-- Whether the regular expression `[^A-Za-z0-9]` matches somewhere in the
string. -/
def hasSpecial (password : String) : Bool :=
  password.toList.any (fun c =>
    !(decide ('A' ≤ c ∧ c ≤ 'Z') || decide ('a' ≤ c ∧ c ≤ 'z') || decide ('0' ≤ c ∧ c ≤ '9')))

/-- The method `RegisterRequest.ValidatePassword`; `none` is the `nil` error. -/
def RegisterRequest.ValidatePassword (r : RegisterRequest) : Option ValidationError :=
  let password := r.Password
  if !hasUpper password then
    some { Field := "password", Message := "Password must contain at least one uppercase letter" }
  else if !hasLower password then
    some { Field := "password", Message := "Password must contain at least one lowercase letter" }
  else if !hasNumber password then
    some { Field := "password", Message := "Password must contain at least one number" }
  else if !hasSpecial password then
    some { Field := "password", Message := "Password must contain at least one special character" }
  else none

/-- The struct `dto.LoginRequest`. -/
structure LoginRequest where
  Email : String
  Password : String
  deriving DecidableEq, Repr

/-- The struct `dto.UserResponse`. -/
structure UserResponse where
  ID : String
  Name : String
  Email : String
  Avatar : Option String
  CreatedAt : String
  UpdatedAt : String
  deriving DecidableEq, Repr

/-- The struct `dto.AuthData`. -/
structure AuthData where
  User : UserResponse
  deriving DecidableEq, Repr

/-- The struct `dto.AuthResponse`. -/
structure AuthResponse where
  Success : Bool
  Message : String
  Data : Option AuthData
  deriving DecidableEq, Repr

/-- The struct `dto.TokenResponse`. -/
structure TokenResponse where
  Success : Bool
  Message : String
  deriving DecidableEq, Repr

end dto

/-! ## `internal/repository` over `database.DB` -/

namespace repository

/-- The calls of `repository.UserRepository`. -/
inductive StoreOp where
  | Create
  | FindByID
  | FindByEmail
  | Update
  | Delete
  deriving DecidableEq, Repr

/-- The state behind `database.DB`: the rows of table `users` and, for each
repository call, the driver error it fails with when the database is not
answering that call (`none`: it answers).  The unique index on `email` and the
primary key keep at most one row per email and per id. -/
structure DB where
  users : List User
  fault : StoreOp → Option String

/-- The method `userRepository.FindByID`. -/
def FindByID (db : DB) (id : UUID) : Except GoError User :=
  match db.fault .FindByID with
  | some msg => .error (.other msg)
  | none =>
    match db.users.find? (fun u => decide (u.ID = id)) with
    | some user => .ok user
    | none => .error .recordNotFound

/-- The method `userRepository.FindByEmail`; the comparison `email = ?` is
exact. -/
def FindByEmail (db : DB) (email : String) : Except GoError User :=
  match db.fault .FindByEmail with
  | some msg => .error (.other msg)
  | none =>
    match db.users.find? (fun u => decide (u.Email = email)) with
    | some user => .ok user
    | none => .error .recordNotFound

/-- Whether a row fits the `varchar` widths of the `gorm` tags of `models.User`. -/
def fitsColumns (u : User) : Bool :=
  decide (u.Name.length ≤ 100) && decide (u.Email.length ≤ 255) &&
  decide (u.Password.length ≤ 255) && decide (u.Role.length ≤ 50) &&
  (match u.Avatar with
   | some a => decide (a.length ≤ 500)
   | none => true)

/-- The method `userRepository.Create`, that is `database.DB.Create(user)`: the
hook `BeforeCreate` runs first and its error aborts the statement; the insert
fails on a driver error, a value wider than its column or a taken email or id;
otherwise the row is stored with the column default for an empty role and the
creation time for zero timestamps.  Returns the database, the user struct as the
caller sees it afterwards, and the error. -/
def Create (L : Lib) (w : World) (db : DB) (user : User) : DB × User × Option GoError :=
  match models.User.BeforeCreate L w user with
  | (u1, some err) => (db, u1, some err)
  | (u1, none) =>
    match db.fault .Create with
    | some msg => (db, u1, some (.other msg))
    | none =>
      let row : User :=
        { u1 with
          Role := if u1.Role = "" then "user" else u1.Role
          CreatedAt := if u1.CreatedAt = models.zeroTime then w.now else u1.CreatedAt
          UpdatedAt := if u1.UpdatedAt = models.zeroTime then w.now else u1.UpdatedAt }
      if !fitsColumns row then
        (db, u1, some (.other "ERROR: value too long for type character varying (SQLSTATE 22001)"))
      else if db.users.any (fun u => decide (u.Email = row.Email) || decide (u.ID = row.ID)) then
        (db, u1, some (.other "ERROR: duplicate key value violates unique constraint (SQLSTATE 23505)"))
      else
        ({ db with users := db.users ++ [row] }, row, none)

end repository

open repository (DB)

/-! ## `internal/utils/cookie.go` and the HTTP response -/

namespace http

/-- The type `http.SameSite`. -/
inductive SameSite where
  | Unset
  | SameSiteDefaultMode
  | SameSiteLaxMode
  | SameSiteStrictMode
  | SameSiteNoneMode
  deriving DecidableEq, Repr

/-- The fields of `http.Cookie` the code sets; the others keep their zero value. -/
structure Cookie where
  Name : String
  Value : String
  HttpOnly : Bool
  Secure : Bool
  SameSite : SameSite
  MaxAge : Int
  Path : String
  deriving DecidableEq, Repr

/-- The JSON body of a response. -/
inductive Body where
  /-- The bodies `gin.H` with a `message` and `utils.ErrorResponse`: a message
  and the map `errors`, left out of the JSON when empty, keys in the order
  `encoding/json` writes them. -/
  | failure (message : String) (errors : List (String × List String))
  /-- A `dto.AuthResponse`. -/
  | auth (r : dto.AuthResponse)
  /-- A `dto.TokenResponse`. -/
  | token (r : dto.TokenResponse)
  deriving DecidableEq, Repr

/-- What a handler chain writes: the status given to `c.JSON`, the body, and the
cookies given to `http.SetCookie`, in order. -/
structure Response where
  status : Nat
  body : Body
  cookies : List Cookie
  deriving DecidableEq, Repr

/-- What the handlers read of an incoming request: the cookies as `c.Cookie`
returns them (name, unescaped value; the first of a name counts) and the headers
as `c.GetHeader` returns them (canonical name, first value). -/
structure Request where
  cookies : List (String × String)
  headers : List (String × String)
  deriving DecidableEq, Repr

/-- The method `gin.Context.Cookie`; `none` is `http.ErrNoCookie`. -/
def Request.Cookie (r : Request) (name : String) : Option String :=
  (r.cookies.find? (fun kv => decide (kv.1 = name))).map (fun kv => kv.2)

/-- The method `gin.Context.GetHeader`. -/
def Request.GetHeader (r : Request) (key : String) : String :=
  match r.headers.find? (fun kv => decide (kv.1 = key)) with
  | some kv => kv.2
  | none => ""

/-- An incoming request as `net/http` hands it to gin: the cookies as
`(*http.Request).Cookie` finds them (name, value as the client sent it; the first
of a name counts) and the headers as `Header.Get` returns them (canonical name,
first value). -/
structure Incoming where
  cookies : List (String × String)
  headers : List (String × String)
  deriving DecidableEq, Repr

/-- The method `(*http.Request).Cookie`; `none` is `http.ErrNoCookie`. -/
def Incoming.Cookie (r : Incoming) (name : String) : Option String :=
  (r.cookies.find? (fun kv => decide (kv.1 = name))).map (fun kv => kv.2)

/-- The method `http.Header.Get`. -/
def Incoming.GetHeader (r : Incoming) (key : String) : String :=
  match r.headers.find? (fun kv => decide (kv.1 = key)) with
  | some kv => kv.2
  | none => ""

/-- The blanks the server's header parser (`net/textproto`) cuts off both ends of
a header value: space and tab. -/
def isBlank (c : Char) : Bool := c = ' ' || c = '\t'

/-- A header value as the server's parser leaves it: no blank at either end. -/
@[reducible] def Trimmed (v : String) : Prop :=
  v.toList.head?.map isBlank ≠ some true ∧ v.toList.getLast?.map isBlank ≠ some true

/-- A request the server has parsed off a connection: every header value is
trimmed. -/
@[reducible] def Incoming.Parsed (r : Incoming) : Prop := ∀ kv ∈ r.headers, Trimmed kv.2

end http

/-! ## What `gin.Context` reads of a request -/

namespace gin

/-- What the handlers read of an incoming request through `gin.Context`.  The
method `Cookie` is

    cookie, err := c.Request.Cookie(name)
    if err != nil { return "", err }
    val, _ := url.QueryUnescape(cookie.Value)
    return val, nil

so the value is unescaped and a value that does not unescape is read as the
empty string, without an error; the method `GetHeader` is `Header.Get`. -/
def Context (L : Lib) (r : http.Incoming) : http.Request :=
  { cookies := r.cookies.map (fun kv => (kv.1, (L.queryUnescape kv.2).getD ""))
    headers := r.headers }

end gin

open http (Cookie Response Request Body)

namespace constants

/-- The constant `constants.CookieAccessToken`. -/
def CookieAccessToken : String := "access_token"

/-- The constant `constants.CookieRefreshToken`. -/
def CookieRefreshToken : String := "refresh_token"

end constants

/-! ## IEEE 754 double precision, as far as `time.Duration.Seconds` needs it

A positive `float64` is written as a pair `(m, e)` that stands for `m * 2 ^ e`.
Only normal numbers occur: the quotients are at least `1e-9` and the sums below
`2 ^ 34`. -/

namespace float64

/-- The integer nearest to `num / den`, the even one of two that are equally
near. -/
def roundHalfEven (num den : ℕ) : ℕ :=
  let q := num / den
  let r := num % den
  if 2 * r < den then q
  else if den < 2 * r then q + 1
  else if q % 2 = 0 then q
  else q + 1

/-- The integer part of the binary logarithm of `n`, by halving at most `fuel`
times. -/
def log2Aux : ℕ → ℕ → ℕ
  | 0, _ => 0
  | fuel + 1, n => if n < 2 then 0 else log2Aux fuel (n / 2) + 1

/-- The integer part of the binary logarithm of a positive `n`. -/
def log2 (n : ℕ) : ℕ := log2Aux n n

/-- The integer part of the binary logarithm of `a / b`, for positive `a` and
`b`. -/
def floorLog2 (a b : ℕ) : Int :=
  let t : Int := (log2 a : Int) - (log2 b : Int)
  if 0 ≤ t then (if b * 2 ^ t.toNat ≤ a then t else t - 1)
  else (if b ≤ a * 2 ^ (-t).toNat then t else t - 1)

/-- The `float64` nearest to `a / b`, for positive `a` and `b`: 53 significant
bits, rounded to nearest, ties to even. -/
def nearest (a b : ℕ) : ℕ × Int :=
  let e : Int := floorLog2 a b - 52
  if 0 ≤ e then (roundHalfEven a (b * 2 ^ e.toNat), e)
  else (roundHalfEven (a * 2 ^ (-e).toNat) b, e)

/-- The integer part of the `float64` sum of the integer `sec` (below `2 ^ 53`,
so exact as a `float64`) and the positive `float64` `q`. -/
def truncSum (sec : ℕ) (q : ℕ × Int) : ℕ :=
  let s : ℕ × Int :=
    if 0 ≤ q.2 then nearest (sec + q.1 * 2 ^ q.2.toNat) 1
    else nearest (sec * 2 ^ (-q.2).toNat + q.1) (2 ^ (-q.2).toNat)
  if 0 ≤ s.2 then s.1 * 2 ^ s.2.toNat else s.1 / 2 ^ (-s.2).toNat

/-- The integer part of `float64(sec) + float64(nsec)/1e9` for a duration of
`d` nanoseconds, `d` not negative: with `nsec = 0` the sum is `float64(sec)`
itself. -/
def secondsTrunc (d : ℕ) : ℕ :=
  let sec := d / 1000000000
  let nsec := d % 1000000000
  if nsec = 0 then sec else truncSum sec (nearest nsec 1000000000)

end float64

namespace utils

/-- The conversion `int(d.Seconds())`: `Seconds` returns
`float64(sec) + float64(nsec)/1e9` with `sec := d / Second` and
`nsec := d % Second`, both truncated toward zero, and the conversion to `int`
drops the fraction.  The operations are odd functions, so a negative duration
gives the negated result of its absolute value. -/
def wholeSeconds (d : Duration) : Int :=
  if 0 ≤ d then (float64.secondsTrunc d.toNat : Int)
  else -(float64.secondsTrunc (-d).toNat : Int)

/-- The function `utils.getSameSite`. -/
def getSameSite (isProduction : Bool) : http.SameSite :=
  if isProduction then .SameSiteStrictMode else .SameSiteLaxMode

/-- The function `utils.SetAuthCookies`: the cookies it adds to the response. -/
def SetAuthCookies (cfg : Config) (accessToken refreshToken : String) : List Cookie :=
  let isProduction : Bool := decide (cfg.Server.Env = "production")
  let accessTokenMaxAge := wholeSeconds cfg.JWT.ExpiresIn
  let refreshTokenMaxAge := wholeSeconds cfg.JWT.RefreshExpires
  [ { Name := "access_token"
      Value := accessToken
      HttpOnly := true
      Secure := isProduction
      SameSite := getSameSite isProduction
      MaxAge := accessTokenMaxAge
      Path := "/" },
    { Name := "refresh_token"
      Value := refreshToken
      HttpOnly := true
      Secure := isProduction
      SameSite := getSameSite isProduction
      MaxAge := refreshTokenMaxAge
      Path := "/" } ]

end utils

/-! ## Request binding (`gin` with `validator/v10`) and `internal/utils/response.go` -/

namespace binding

/-- A `validator.FieldError`: the struct field and the tag that failed. -/
structure FieldError where
  Field : String
  Tag : String
  deriving DecidableEq, Repr

/-- The error of `c.ShouldBindJSON`: the body did not decode into the struct, or
it decoded and `validator.ValidationErrors` lists one failed tag per field, in
field order. -/
inductive BindError where
  | decode
  | ValidationErrors (errs : List FieldError)
  deriving DecidableEq, Repr

/-- The first tag of a field that fails, among tags paired with whether they
hold. -/
def firstFailing (field : String) (tags : List (String × Bool)) : List FieldError :=
  match tags.find? (fun t => !t.2) with
  | some t => [{ Field := field, Tag := t.1 }]
  | none => []

/-- The tags of `dto.RegisterRequest`: `required,min=2,max=100` on `Name`,
`required,email` on `Email`, `required,min=8,max=128` on `Password`; `min` and
`max` count runes. -/
def validateRegisterRequest (L : Lib) (req : dto.RegisterRequest) : List FieldError :=
  firstFailing "Name"
      [("required", decide (req.Name ≠ "")), ("min", decide (2 ≤ req.Name.length)),
       ("max", decide (req.Name.length ≤ 100))] ++
  firstFailing "Email"
      [("required", decide (req.Email ≠ "")), ("email", L.isEmail req.Email)] ++
  firstFailing "Password"
      [("required", decide (req.Password ≠ "")), ("min", decide (8 ≤ req.Password.length)),
       ("max", decide (req.Password.length ≤ 128))]

/-- The tags of `dto.LoginRequest`: `required,email` on `Email`, `required` on
`Password`. -/
def validateLoginRequest (L : Lib) (req : dto.LoginRequest) : List FieldError :=
  firstFailing "Email"
      [("required", decide (req.Email ≠ "")), ("email", L.isEmail req.Email)] ++
  firstFailing "Password" [("required", decide (req.Password ≠ ""))]

/-- The call `c.ShouldBindJSON(&req)` for a `dto.RegisterRequest`; `body` is the
JSON body decoded into the struct, `none` when it does not decode. -/
def ShouldBindRegister (L : Lib) (body : Option dto.RegisterRequest) :
    Except BindError dto.RegisterRequest :=
  match body with
  | none => .error .decode
  | some req =>
    match validateRegisterRequest L req with
    | [] => .ok req
    | errs => .error (.ValidationErrors errs)

/-- The call `c.ShouldBindJSON(&req)` for a `dto.LoginRequest`. -/
def ShouldBindLogin (L : Lib) (body : Option dto.LoginRequest) :
    Except BindError dto.LoginRequest :=
  match body with
  | none => .error .decode
  | some req =>
    match validateLoginRequest L req with
    | [] => .ok req
    | errs => .error (.ValidationErrors errs)

end binding

namespace utils

/-- The function `utils.getValidationMessage`. -/
def getValidationMessage (fieldError : binding.FieldError) : String :=
  if fieldError.Tag = "required" then "This field is required"
  else if fieldError.Tag = "email" then "Please enter a valid email address"
  else if fieldError.Tag = "min" then "Value is too short"
  else if fieldError.Tag = "max" then "Value is too long"
  else "Invalid value"

/-- The function `utils.ValidationErrorResponse`: the message and the map from
lower-cased field name to messages, read in key order (the bound structs have
the fields `Email`, `Name`, `Password`). -/
def ValidationErrorResponse (L : Lib) (err : binding.BindError) : Body :=
  match err with
  | .decode => .failure "Validation failed" []
  | .ValidationErrors errs =>
    .failure "Validation failed"
      (["email", "name", "password"].filterMap (fun key =>
        match (errs.filter (fun fe => decide (ToLower L fe.Field = key))).map getValidationMessage with
        | [] => none
        | msgs => some (key, msgs)))

/-- The function `utils.ValidationErrorJSON`. -/
def ValidationErrorJSON (L : Lib) (err : binding.BindError) : Response :=
  { status := 400, body := ValidationErrorResponse L err, cookies := [] }

end utils

/-! ## `internal/service/auth_service.go` -/

namespace service

/-- The function `service.mapUserToDTO`. -/
def mapUserToDTO (L : Lib) (user : User) : dto.UserResponse :=
  { ID := L.uuidString user.ID
    Name := user.Name
    Email := user.Email
    Avatar := user.Avatar
    CreatedAt := L.timeFormat user.CreatedAt "2006-01-02T15:04:05.000Z"
    UpdatedAt := L.timeFormat user.UpdatedAt "2006-01-02T15:04:05.000Z" }

/-- The method `authService.Register`: the database afterwards and what is
returned, the error or the response with the access and the refresh token. -/
def Register (L : Lib) (cfg : Config) (w : World) (db : DB) (req : dto.RegisterRequest) :
    DB × Except GoError (dto.AuthResponse × String × String) :=
  let email := ToLower L (TrimSpace L req.Email)
  match repository.FindByEmail db email with
  | .ok _ => (db, .error (errorsNew "user with this email already exists"))
  | .error err =>
    if !err.isRecordNotFound then (db, .error err)
    else
      let user : User :=
        { ID := 0
          Name := TrimSpace L req.Name
          Email := email
          Password := req.Password
          Avatar := none
          Role := ""
          CreatedAt := models.zeroTime
          UpdatedAt := models.zeroTime }
      match repository.Create L w db user with
      | (db1, _, some err) => (db1, .error err)
      | (db1, user1, none) =>
        match utils.GenerateAccessToken L cfg w.now user1.ID user1.Email with
        | .error err => (db1, .error err)
        | .ok accessToken =>
          match utils.GenerateRefreshToken L cfg w.now user1.ID user1.Email with
          | .error err => (db1, .error err)
          | .ok refreshToken =>
            (db1, .ok ({ Success := true
                         Message := "Account created successfully"
                         Data := some { User := mapUserToDTO L user1 } },
                       accessToken, refreshToken))

/-- The method `authService.Login`. -/
def Login (L : Lib) (cfg : Config) (w : World) (db : DB) (req : dto.LoginRequest) :
    Except GoError (dto.AuthResponse × String × String) :=
  let email := ToLower L (TrimSpace L req.Email)
  match repository.FindByEmail db email with
  | .error err =>
    if err.isRecordNotFound then .error (errorsNew "invalid email or password")
    else .error err
  | .ok user =>
    if !user.ComparePassword L req.Password then
      .error (errorsNew "invalid email or password")
    else
      match utils.GenerateAccessToken L cfg w.now user.ID user.Email with
      | .error err => .error err
      | .ok accessToken =>
        match utils.GenerateRefreshToken L cfg w.now user.ID user.Email with
        | .error err => .error err
        | .ok refreshToken =>
          .ok ({ Success := true
                 Message := "Login successful"
                 Data := some { User := mapUserToDTO L user } },
               accessToken, refreshToken)

/-- The method `authService.ValidateUser`. -/
def ValidateUser (db : DB) (userID : UUID) : Except GoError User :=
  repository.FindByID db userID

/-- The method `authService.RefreshToken`. -/
def RefreshToken (L : Lib) (cfg : Config) (w : World) (db : DB) (refreshToken : String) :
    Except GoError (String × String) :=
  match utils.ValidateToken L cfg w.now refreshToken true with
  | .error _ => .error (errorsNew "invalid or expired refresh token")
  | .ok claims =>
    match ValidateUser db claims.UserID with
    | .error _ => .error (errorsNew "invalid refresh token")
    | .ok user =>
      match utils.GenerateAccessToken L cfg w.now user.ID user.Email with
      | .error err => .error err
      | .ok accessToken =>
        match utils.GenerateRefreshToken L cfg w.now user.ID user.Email with
        | .error err => .error err
        | .ok newRefreshToken => .ok (accessToken, newRefreshToken)

end service

/-! ## `internal/middleware/auth_middleware.go` -/

namespace middleware

/-- The token `JWTAuthMiddleware` takes from a request: the cookie
`access_token` when present and not empty, else what follows `Bearer ` in the
`Authorization` header, else the empty string. -/
def extractToken (req : Request) : String :=
  match req.Cookie constants.CookieAccessToken with
  | some cookie =>
    if cookie ≠ "" then cookie
    else
      let authHeader := req.GetHeader "Authorization"
      if authHeader ≠ "" ∧ "Bearer ".toList.isPrefixOf authHeader.toList then
        String.mk (authHeader.toList.drop 7)
      else ""
  | none =>
    let authHeader := req.GetHeader "Authorization"
    if authHeader ≠ "" ∧ "Bearer ".toList.isPrefixOf authHeader.toList then
      String.mk (authHeader.toList.drop 7)
    else ""

/-- The handler `middleware.JWTAuthMiddleware()`: the response it aborts with, or
the `userID` and `email` it sets in the context before `c.Next()`. -/
def JWTAuthMiddleware (L : Lib) (cfg : Config) (w : World) (req : Request) :
    Except Response (UUID × String) :=
  let token := extractToken req
  if token = "" then
    .error { status := 401, body := .failure "Unauthorized" [], cookies := [] }
  else
    match utils.ValidateToken L cfg w.now token false with
    | .error _ =>
      .error { status := 401, body := .failure "Invalid or expired token" [], cookies := [] }
    | .ok claims => .ok (claims.UserID, claims.Email)

end middleware

/-! ## `internal/handler` -/

namespace handler

/-- The function `handler.ValidateRegisterRequest`. -/
def ValidateRegisterRequest (req : dto.RegisterRequest) : Option dto.ValidationError :=
  match req.ValidatePassword with
  | some err => some err
  | none => none

/-- The function `handler.HandleValidationError` on a `*dto.ValidationError`, the
only error `ValidateRegisterRequest` returns. -/
def HandleValidationError (validationErr : dto.ValidationError) : Response :=
  { status := 400
    body := .failure "Validation failed" [(validationErr.Field, [validationErr.Message])]
    cookies := [] }

/-- The function `handler.mapUserToResponse`. -/
def mapUserToResponse (L : Lib) (user : User) : dto.UserResponse :=
  { ID := L.uuidString user.ID
    Name := user.Name
    Email := user.Email
    Avatar := user.Avatar
    CreatedAt := L.timeFormat user.CreatedAt "2006-01-02T15:04:05Z07:00"
    UpdatedAt := L.timeFormat user.UpdatedAt "2006-01-02T15:04:05Z07:00" }

/-- The method `AuthHandler.Register`. -/
def Register (L : Lib) (cfg : Config) (w : World) (db : DB)
    (body : Option dto.RegisterRequest) : DB × Response :=
  match binding.ShouldBindRegister L body with
  | .error err => (db, utils.ValidationErrorJSON L err)
  | .ok req =>
    match ValidateRegisterRequest req with
    | some err => (db, HandleValidationError err)
    | none =>
      match service.Register L cfg w db req with
      | (db1, .error err) =>
        if err.Error = "user with this email already exists" then
          (db1, { status := 409, body := .failure err.Error [], cookies := [] })
        else
          (db1, { status := 500, body := .failure "Internal server error" [], cookies := [] })
      | (db1, .ok (response, accessToken, refreshToken)) =>
        (db1, { status := 201
                body := .auth response
                cookies := utils.SetAuthCookies cfg accessToken refreshToken })

/-- The method `AuthHandler.Login`. -/
def Login (L : Lib) (cfg : Config) (w : World) (db : DB)
    (body : Option dto.LoginRequest) : Response :=
  match binding.ShouldBindLogin L body with
  | .error err => utils.ValidationErrorJSON L err
  | .ok req =>
    match service.Login L cfg w db req with
    | .error err => { status := 401, body := .failure err.Error [], cookies := [] }
    | .ok (response, accessToken, refreshToken) =>
      { status := 200
        body := .auth response
        cookies := utils.SetAuthCookies cfg accessToken refreshToken }

/-- The method `AuthHandler.RefreshToken`. -/
def RefreshToken (L : Lib) (cfg : Config) (w : World) (db : DB) (req : Request) : Response :=
  match req.Cookie constants.CookieRefreshToken with
  | none => { status := 401, body := .failure "Refresh token not provided" [], cookies := [] }
  | some refreshToken =>
    if refreshToken = "" then
      { status := 401, body := .failure "Refresh token not provided" [], cookies := [] }
    else
      match service.RefreshToken L cfg w db refreshToken with
      | .error err => { status := 401, body := .failure err.Error [], cookies := [] }
      | .ok (accessToken, newRefreshToken) =>
        { status := 200
          body := .token { Success := true, Message := "Token refreshed successfully" }
          cookies := utils.SetAuthCookies cfg accessToken newRefreshToken }

/-- The method `AuthHandler.GetCurrentUser`; `userIDValue` is what `c.Get("userID")`
finds, a `uuid.UUID` whenever the middleware has set it. -/
def GetCurrentUser (L : Lib) (db : DB) (userIDValue : Option UUID) : Response :=
  match userIDValue with
  | none => { status := 401, body := .failure "Unauthorized" [], cookies := [] }
  | some userID =>
    match service.ValidateUser db userID with
    | .error _ => { status := 404, body := .failure "User not found" [], cookies := [] }
    | .ok user =>
      { status := 200
        body := .auth { Success := true
                        Message := "User retrieved successfully"
                        Data := some { User := mapUserToResponse L user } }
        cookies := [] }

end handler

/-! ## The `/api/auth` routes of `router.SetupRouter`

The middlewares installed with `r.Use` run before the chain of every route.
`gin.Recovery` acts on a panic only, and `CORSMiddleware` sets headers and stops
`OPTIONS` requests only, so both let the `POST` and `GET` requests of these routes
through without a cookie or a body.  `middleware.LoggerMiddleware` is not among
the sources; it is taken to log the request and call `c.Next()`. -/

namespace router

/-- The route `POST /api/auth/signup`. -/
def postSignup (L : Lib) (cfg : Config) (w : World) (db : DB)
    (body : Option dto.RegisterRequest) : DB × Response :=
  handler.Register L cfg w db body

/-- The route `POST /api/auth/login`. -/
def postLogin (L : Lib) (cfg : Config) (w : World) (db : DB)
    (body : Option dto.LoginRequest) : Response :=
  handler.Login L cfg w db body

/-- The route `POST /api/auth/token/refresh`. -/
def postTokenRefresh (L : Lib) (cfg : Config) (w : World) (db : DB) (req : Request) : Response :=
  handler.RefreshToken L cfg w db req

/-- The route `GET /api/auth/me`: `JWTAuthMiddleware`, then
`AuthHandler.GetCurrentUser` unless the middleware aborted. -/
def getMe (L : Lib) (cfg : Config) (w : World) (db : DB) (req : Request) : Response :=
  match middleware.JWTAuthMiddleware L cfg w req with
  | .error aborted => aborted
  | .ok (userID, _) => handler.GetCurrentUser L db (some userID)

end router

/-! ## Vocabulary of the statements -/

/-- The contract of the token codec of `golang-jwt`: parsing the compact
serialisation of claims `c` with signature `sig` gives back the HS256 header,
`c`, the signed text and `sig`. -/
def CodecRoundTrip (L : Lib) : Prop :=
  ∀ (c : Claims) (sig : String),
    L.parseUnverified (L.signingString c ++ "." ++ L.encodeSegment sig) =
      some { alg := "HS256", claims := c, signingInput := L.signingString c, sig := sig }

/-- The contract of `bcrypt`: a hash it generated compares equal with the
password it was generated from. -/
def BcryptSound (L : Lib) : Prop :=
  ∀ (password : String) (cost : Nat) (salt hash : String),
    L.bcryptGenerate password cost salt = .ok hash → L.bcryptCompare hash password = true

/-- The contract of `bcrypt.CompareHashAndPassword` on a hash shorter than 59
bytes: `ErrHashTooShort`. -/
def BcryptRejectsShortHash (L : Lib) : Prop :=
  ∀ (hash password : String), hash.utf8ByteSize < 59 → L.bcryptCompare hash password = false

/-- The registration policy as the specification words it: 8 to 128
characters, with an uppercase letter, a lowercase letter, a digit and a
character that is neither letter nor digit. -/
@[reducible]
def PasswordPolicy (s : String) : Prop :=
  8 ≤ s.length ∧ s.length ≤ 128 ∧
  (∃ c ∈ s.toList, c.isUpper = true) ∧ (∃ c ∈ s.toList, c.isLower = true) ∧
  (∃ c ∈ s.toList, c.isDigit = true) ∧ (∃ c ∈ s.toList, c.isAlphanum = false)

/-- The character-class rules in the order the specification fixes (uppercase,
lowercase, number, special), each with the message reported for its violation. -/
def passwordRules : List ((String → Bool) × String) :=
  [ (fun s => s.toList.any Char.isUpper, "Password must contain at least one uppercase letter"),
    (fun s => s.toList.any Char.isLower, "Password must contain at least one lowercase letter"),
    (fun s => s.toList.any Char.isDigit, "Password must contain at least one number"),
    (fun s => s.toList.any (fun c => !c.isAlphanum),
      "Password must contain at least one special character") ]

/-- The bearer token of an `Authorization` header as C12 words it: the header
with `Bearer ` removed, when the header starts with `Bearer `. -/
def claimedBearer (authHeader : String) : Option String :=
  if "Bearer ".toList.isPrefixOf authHeader.toList then
    some (String.mk (authHeader.toList.drop 7))
  else none

/-- The token passed to validation as C12 words it, of an incoming request: the
value of the cookie `access_token` when that cookie is present and not empty,
else the bearer token of the header, else none. -/
def claimedToken (r : http.Incoming) : Option String :=
  match r.Cookie "access_token" with
  | some value =>
    if value ≠ "" then some value else claimedBearer (r.GetHeader "Authorization")
  | none => claimedBearer (r.GetHeader "Authorization")

/-- The token of an incoming request with the cookie taken as `c.Cookie` reads
it: the unescaped value of the cookie `access_token` when that cookie is present
and its value as read (empty when it does not unescape) is not empty, else the
bearer token of the header, else none. -/
def readToken (L : Lib) (r : http.Incoming) : Option String :=
  match r.Cookie "access_token" with
  | some value =>
    if (L.queryUnescape value).getD "" ≠ "" then some ((L.queryUnescape value).getD "")
    else claimedBearer (r.GetHeader "Authorization")
  | none => claimedBearer (r.GetHeader "Authorization")

/-- What follows `Bearer ` in the `Authorization` header a handler reads, when
the header starts with `Bearer ` and something follows. -/
def bearerToken (req : Request) : Option String :=
  if "Bearer ".toList.isPrefixOf (req.GetHeader "Authorization").toList ∧
      String.mk ((req.GetHeader "Authorization").toList.drop 7) ≠ "" then
    some (String.mk ((req.GetHeader "Authorization").toList.drop 7))
  else none

/-- The token in what a handler reads of a request: the cookie `access_token`
when present and not empty, else `bearerToken`, else none. -/
def presentedToken (req : Request) : Option String :=
  match req.Cookie "access_token" with
  | some cookie => if cookie ≠ "" then some cookie else bearerToken req
  | none => bearerToken req

/-- What the authentication step answers once a token, or none, has been taken
from the request: without a token 401 `Unauthorized` and no validation, with a
token the outcome of its validation as an access token. -/
def authOutcome (L : Lib) (cfg : Config) (w : World) (token : Option String) :
    Except Response (UUID × String) :=
  match token with
  | none => .error { status := 401, body := .failure "Unauthorized" [], cookies := [] }
  | some t =>
    match utils.ValidateToken L cfg w.now t false with
    | .error _ =>
      .error { status := 401, body := .failure "Invalid or expired token" [], cookies := [] }
    | .ok claims => .ok (claims.UserID, claims.Email)

/-! ## Sample inputs

A stand-in for the third-party primitives and a few concrete configurations,
requests and stores, at which the hypotheses of the theorems below are met. -/

namespace sample

/-- A number in base 4096, least significant digit first, the digit `d` written
as the character of code `d + 256`. -/
def numeral (n : ℕ) : List Char := (Nat.digits 4096 n).map (fun d => Char.ofNat (d + 256))

/-- The number a numeral stands for. -/
def ofNumeral (l : List Char) : ℕ := Nat.ofDigits 4096 (l.map (fun c => c.toNat - 256))

/-- The characters numerals are written with. -/
def isDigitChar (c : Char) : Bool := decide (256 ≤ c.toNat)

/-- Reads a numeral and the comma that ends it. -/
def readNumeral (l : List Char) : Option (ℕ × List Char) :=
  match l.dropWhile isDigitChar with
  | ',' :: rest => some (ofNumeral (l.takeWhile isDigitChar), rest)
  | _ => none

/-- An optional date as a number. -/
def dateCode : Option Int → ℕ
  | none => 0
  | some z => if 0 ≤ z then 2 * z.toNat + 1 else 2 * (-z).toNat + 2

/-- The optional date a number stands for. -/
def dateOfCode : ℕ → Option Int
  | 0 => none
  | k + 1 => some (if k % 2 = 0 then ((k / 2 : ℕ) : Int) else -((k / 2 : ℕ) : Int))

/-- The stand-in serialisation of claims, in front of `rest`: five numerals,
each ended by a comma (subject, the three dates, the length of the email), then
the email. -/
def writeClaims (c : Claims) (rest : List Char) : List Char :=
  numeral c.UserID ++ ',' :: (numeral (dateCode c.ExpiresAt) ++ ',' ::
    (numeral (dateCode c.NotBefore) ++ ',' :: (numeral (dateCode c.IssuedAt) ++ ',' ::
      (numeral c.Email.length ++ ',' :: (c.Email.toList ++ rest)))))

/-- Reads claims off the front of a text, and returns what follows them. -/
def readClaims (l : List Char) : Option (Claims × List Char) :=
  match readNumeral l with
  | none => none
  | some (uid, l1) =>
    match readNumeral l1 with
    | none => none
    | some (exp, l2) =>
      match readNumeral l2 with
      | none => none
      | some (nbf, l3) =>
        match readNumeral l3 with
        | none => none
        | some (iat, l4) =>
          match readNumeral l4 with
          | none => none
          | some (len, l5) =>
            if len ≤ l5.length then
              some ({ UserID := uid, Email := String.mk (l5.take len), ExpiresAt := dateOfCode exp
                      NotBefore := dateOfCode nbf, IssuedAt := dateOfCode iat }, l5.drop len)
            else none

/-- Sixty characters in the layout of a bcrypt hash: version, cost, salt and
digest. -/
def hashTag : String := "$2a$10$0123456789abcdefghijkl0123456789abcdefghijklmnopqrstu"

/-- The value of a hexadecimal digit. -/
def unhex (c : Char) : Option ℕ :=
  if '0' ≤ c ∧ c ≤ '9' then some (c.toNat - 48)
  else if 'a' ≤ c ∧ c ≤ 'f' then some (c.toNat - 87)
  else if 'A' ≤ c ∧ c ≤ 'F' then some (c.toNat - 55)
  else none

/-- Percent-decoding of a query component, with what of an escape has been read
as the first argument: `+` is a space, `%` is followed by two hexadecimal digits
and gives the character of that code, anything else is a failure. -/
def unescapeAux : Option (Option ℕ) → List Char → Option (List Char)
  | none, [] => some []
  | some _, [] => none
  | none, c :: rest =>
    if c = '%' then unescapeAux (some none) rest
    else if c = '+' then (unescapeAux none rest).map (fun l => ' ' :: l)
    else (unescapeAux none rest).map (fun l => c :: l)
  | some none, c :: rest =>
    match unhex c with
    | none => none
    | some x => unescapeAux (some (some x)) rest
  | some (some x), c :: rest =>
    match unhex c with
    | none => none
    | some y => (unescapeAux none rest).map (fun l => Char.ofNat (16 * x + y) :: l)

/-- A stand-in library: identity case mapping outside ASCII, an `@` test for
e-mail addresses, key-prefixing for the MAC, a codec of numerals for tokens, a
copy of the password behind a fixed tag for the hash and percent-decoding with
every escape taken as one character. -/
def lib : Lib where
  unicodeToLower := id
  unicodeIsSpace := fun _ => false
  uuidString := fun u => toString u
  timeFormat := fun t _ => toString t
  isEmail := fun s => s.toList.contains '@'
  hmacSHA256 := fun key msg => key ++ msg
  otherMethod := fun _ => none
  signingString := fun c => String.mk (writeClaims c [])
  encodeSegment := id
  parseUnverified := fun s =>
    match readClaims s.toList with
    | some (c, '.' :: rest) =>
      some { alg := "HS256", claims := c, signingInput := String.mk (writeClaims c [])
             sig := String.mk rest }
    | _ => none
  bcryptGenerate := fun password _ _ =>
    if 72 < password.utf8ByteSize then .error (.other "bcrypt: password length exceeds 72 bytes")
    else .ok (hashTag ++ password)
  bcryptCompare := fun hash password => decide (hash = hashTag ++ password)
  queryUnescape := fun s => (unescapeAux none s.toList).map String.mk

/-- A database that answers every call. -/
def noFault : repository.StoreOp → Option String := fun _ => none

/-- The empty database. -/
def emptyDB : DB := { users := [], fault := noFault }

/-- A clock at the epoch. -/
def world : World := { now := 0, newUUID := 7, salt := "salt" }

/-- The configuration `config.Load` builds from an empty environment. -/
def defaultConfig : Config := config.Load (fun _ => "")

/-- An environment that sets both signing secrets to the same value. -/
def sharedSecretEnv : String → String := fun key =>
  if key = "JWT_SECRET" then "one-secret-for-both"
  else if key = "JWT_REFRESH_SECRET" then "one-secret-for-both"
  else ""

/-- A user record whose password is the plaintext `$Valid123`. -/
def dollarUser : User :=
  { ID := 0, Name := "Ann", Email := "ann@x.com", Password := "$Valid123", Avatar := none
    Role := "", CreatedAt := models.zeroTime, UpdatedAt := models.zeroTime }

/-- A registration request whose secret is `$Valid123`. -/
def dollarRequest : dto.RegisterRequest :=
  { Name := "Ann", Email := "ann@x.com", Password := "$Valid123" }

/-- A user record whose password is the plaintext `Valid123!`. -/
def plainUser : User :=
  { ID := 0, Name := "Ann", Email := "ann@x.com", Password := "Valid123!", Avatar := none
    Role := "", CreatedAt := models.zeroTime, UpdatedAt := models.zeroTime }

/-- Ann as the store holds her, with the hash the stand-in library makes of
`Valid123!`. -/
def ann : User :=
  { ID := 7, Name := "Ann", Email := "ann@x.com", Password := hashTag ++ "Valid123!"
    Avatar := none, Role := "user", CreatedAt := 0, UpdatedAt := 0 }

/-- A database that holds Ann. -/
def annDB : DB := { users := [ann], fault := noFault }

/-- A database that holds a user registered under `a@b.com`. -/
def abDB : DB := { users := [{ ann with Email := "a@b.com" }], fault := noFault }

/-- An environment whose access lifetime overflows the multiplication of
`parseDuration`: `15817298423145364 * 1e9` wraps to 8589934592999999488
nanoseconds, 2 ^ 33 seconds and 999999488 nanoseconds. -/
def overflowEnv : String → String := fun key =>
  if key = "JWT_EXPIRES_IN" then "15817298423145364s" else ""

/-- An incoming request whose cookie `access_token` has the value `%zz`, which
is no escape sequence, and whose `Authorization` header is `Bearer ` followed by
a token. -/
def strayCookieRequest (token : String) : http.Incoming :=
  { cookies := [("access_token", "%zz")], headers := [("Authorization", "Bearer " ++ token)] }

/-- A database that holds Ann and fails every call with a driver error. -/
def downDB : DB :=
  { users := [ann], fault := fun _ => some "dial tcp 127.0.0.1:5432: connect: connection refused" }

end sample

/-! ## Lemmas -/

theorem sample.toNat_ofNat_small (m : ℕ) (h : m < 55296) : (Char.ofNat m).toNat = m := by
  have hv : m.isValidChar := Or.inl h
  simp only [Char.ofNat, dif_pos hv, Char.ofNatAux, Char.toNat]
  rfl

theorem sample.ofNumeral_numeral (n : ℕ) : sample.ofNumeral (sample.numeral n) = n := by
  unfold sample.ofNumeral sample.numeral
  rw [List.map_map]
  have h : ∀ d ∈ Nat.digits 4096 n,
      ((fun c : Char => c.toNat - 256) ∘ (fun d : ℕ => Char.ofNat (d + 256))) d = d := by
    intro d hd
    have hlt : d < 4096 := Nat.digits_lt_base (by norm_num) hd
    simp only [Function.comp_apply]
    rw [sample.toNat_ofNat_small _ (by omega)]
    omega
  rw [List.map_congr_left h, List.map_id', Nat.ofDigits_digits]

theorem sample.numeral_isDigitChar (n : ℕ) : ∀ c ∈ sample.numeral n, sample.isDigitChar c = true := by
  intro c hc
  simp only [sample.numeral, List.mem_map] at hc
  obtain ⟨d, hd, rfl⟩ := hc
  have hlt : d < 4096 := Nat.digits_lt_base (by norm_num) hd
  simp only [sample.isDigitChar, decide_eq_true_eq]
  rw [sample.toNat_ofNat_small _ (by omega)]
  omega

theorem sample.takeWhile_digits (l r : List Char) (h : ∀ c ∈ l, sample.isDigitChar c = true) :
    (l ++ ',' :: r).takeWhile sample.isDigitChar = l := by
  induction l with
  | nil =>
    have hc : sample.isDigitChar ',' = false := by decide
    simp [List.takeWhile, hc]
  | cons x xs ih =>
    simp [List.takeWhile, h x (List.mem_cons_self _ _),
      ih (fun c hc => h c (List.mem_cons_of_mem _ hc))]

theorem sample.dropWhile_digits (l r : List Char) (h : ∀ c ∈ l, sample.isDigitChar c = true) :
    (l ++ ',' :: r).dropWhile sample.isDigitChar = ',' :: r := by
  induction l with
  | nil =>
    have hc : sample.isDigitChar ',' = false := by decide
    simp [List.dropWhile, hc]
  | cons x xs ih =>
    simp [List.dropWhile, h x (List.mem_cons_self _ _),
      ih (fun c hc => h c (List.mem_cons_of_mem _ hc))]

theorem sample.readNumeral_numeral (n : ℕ) (r : List Char) :
    sample.readNumeral (sample.numeral n ++ ',' :: r) = some (n, r) := by
  simp only [sample.readNumeral, sample.dropWhile_digits _ _ (sample.numeral_isDigitChar n),
    sample.takeWhile_digits _ _ (sample.numeral_isDigitChar n), sample.ofNumeral_numeral]

theorem sample.dateOfCode_dateCode (o : Option Int) : sample.dateOfCode (sample.dateCode o) = o := by
  cases o with
  | none => rfl
  | some z =>
    by_cases hz : 0 ≤ z
    · simp only [sample.dateCode, if_pos hz, sample.dateOfCode]
      congr 1
      rw [if_pos (by omega)]
      omega
    · simp only [sample.dateCode, if_neg hz, sample.dateOfCode]
      congr 1
      rw [if_neg (by omega)]
      omega

theorem sample.readClaims_writeClaims (c : Claims) (r : List Char) :
    sample.readClaims (sample.writeClaims c r) = some (c, r) := by
  simp only [sample.readClaims, sample.writeClaims, sample.readNumeral_numeral, sample.dateOfCode_dateCode]
  have hl : c.Email.toList.length = c.Email.length := rfl
  have hlen : c.Email.length ≤ (c.Email.toList ++ r).length := by
    rw [List.length_append]
    omega
  rw [if_pos hlen, List.take_left' hl, List.drop_left' hl]
  rfl

theorem sample.writeClaims_append (c : Claims) (r t : List Char) :
    sample.writeClaims c r ++ t = sample.writeClaims c (r ++ t) := by
  simp [sample.writeClaims, List.append_assoc]

theorem sample.lib_codecRoundTrip : CodecRoundTrip sample.lib := by
  intro c sig
  have hl : (String.mk (sample.writeClaims c []) ++ "." ++ sig).toList =
      sample.writeClaims c ('.' :: sig.toList) := by
    have h := sample.writeClaims_append c [] ('.' :: sig.toList)
    simp only [List.nil_append] at h
    rw [← h]
    simp [String.toList]
  simp only [sample.lib, id, hl, sample.readClaims_writeClaims]
  rfl

theorem sample.lib_bcryptSound : BcryptSound sample.lib := by
  intro password cost salt hash h
  simp only [sample.lib] at h ⊢
  split at h
  · cases h
  · cases h
    simp

theorem sample.utf8ByteSize_append (a b : String) :
    (a ++ b).utf8ByteSize = a.utf8ByteSize + b.utf8ByteSize := by
  cases a with
  | mk x =>
    cases b with
    | mk y =>
      show String.utf8ByteSize ⟨x ++ y⟩ = _
      simp [String.utf8ByteSize_mk, String.utf8Len_append]

theorem sample.lib_bcryptRejectsShortHash : BcryptRejectsShortHash sample.lib := by
  intro hash password hshort
  simp only [sample.lib, decide_eq_false_iff_not]
  intro h
  have hsize := sample.utf8ByteSize_append sample.hashTag password
  have htag : sample.hashTag.utf8ByteSize = 60 := by decide
  rw [h, hsize, htag] at hshort
  omega

theorem sample.defaultConfig_JWT :
    sample.defaultConfig.JWT =
      { Secret := "your-secret-key"
        RefreshSecret := "your-refresh-secret-key"
        ExpiresIn := 3600000000000
        RefreshExpires := 604800000000000 } := by
  decide

theorem sample.sharedSecretConfig_JWT :
    (config.Load sample.sharedSecretEnv).JWT =
      { Secret := "one-secret-for-both"
        RefreshSecret := "one-secret-for-both"
        ExpiresIn := 3600000000000
        RefreshExpires := 604800000000000 } := by
  decide

/-- Parsing a token that `SignedString` wrote under `key`, with `key2` as the
verification key: the signature check compares the two tags of the signed text,
then the claims are validated. -/
theorem jwt.parse_signed (L : Lib) (hL : CodecRoundTrip L) (c : Claims) (key key2 : String)
    (now : Time) :
    jwt.ParseWithClaims L
        (L.signingString c ++ "." ++ L.encodeSegment (L.hmacSHA256 key (L.signingString c)))
        key2 now =
      if L.hmacSHA256 key (L.signingString c) = L.hmacSHA256 key2 (L.signingString c) then
        (match jwt.validateClaims c now with
         | .error e => .error e
         | .ok () => .ok c)
      else .error .ErrTokenSignatureInvalid := by
  unfold jwt.ParseWithClaims
  rw [hL c (L.hmacSHA256 key (L.signingString c))]
  by_cases h : L.hmacSHA256 key (L.signingString c) = L.hmacSHA256 key2 (L.signingString c)
  · simp [jwt.methodVerify, h]
  · simp [jwt.methodVerify, h]

/-- Validation of claims with an expiry and no not-before. -/
theorem jwt.validateClaims_exp (uid : UUID) (email : String) (exp : Int) (iat : Option Int)
    (now : Time) :
    jwt.validateClaims
        { UserID := uid, Email := email, ExpiresAt := some exp, NotBefore := none, IssuedAt := iat }
        now =
      if now < jwt.NumericDate.toTime exp then .ok () else .error .ErrTokenExpired := by
  simp [jwt.validateClaims]

/-! ## C1: separation of the access and the refresh domain -/

/-- C1, as stated, fails: with `JWT_SECRET` and `JWT_REFRESH_SECRET` set to the
same value, `config.Load` builds a configuration under which, whatever the MAC
and the codec are, the access token issued for user 7 is accepted by
`ValidateToken(token, isRefresh=true)`. -/
theorem access_token_accepted_as_refresh_under_shared_secret :
    (config.Load sample.sharedSecretEnv).JWT.Secret =
        (config.Load sample.sharedSecretEnv).JWT.RefreshSecret ∧
    ∀ L : Lib, CodecRoundTrip L →
      ∃ token claims,
        utils.GenerateAccessToken L (config.Load sample.sharedSecretEnv) 0 7 "ann@x.com" =
            .ok token ∧
        utils.ValidateToken L (config.Load sample.sharedSecretEnv) 0 token true = .ok claims := by
  refine ⟨by decide, fun L hL => ?_⟩
  refine ⟨_, ⟨7, "ann@x.com", some 3600, none, some 0⟩, rfl, ?_⟩
  simp only [utils.ValidateToken, sample.sharedSecretConfig_JWT, if_true]
  rw [jwt.parse_signed L hL, jwt.validateClaims_exp]
  simp [jwt.NumericDate.toTime, jwt.NewNumericDate, Second]

/-- C1, amended: when the two secrets of the configuration give different
HMAC tags, an access token is rejected by `ValidateToken(token, isRefresh=true)`
at every time, so `RefreshToken` fails on it, and a refresh token is rejected by
`ValidateToken(token, isRefresh=false)` at every time. -/
theorem domain_confusion_rejected (L : Lib) (hL : CodecRoundTrip L) (cfg : Config)
    (hkeys : ∀ m, L.hmacSHA256 cfg.JWT.Secret m ≠ L.hmacSHA256 cfg.JWT.RefreshSecret m)
    (issued : Time) (userID : UUID) (email : String) :
    (∃ token, utils.GenerateAccessToken L cfg issued userID email = .ok token ∧
      (∀ now, utils.ValidateToken L cfg now token true = .error .ErrTokenSignatureInvalid) ∧
      (∀ w db, service.RefreshToken L cfg w db token =
        .error (errorsNew "invalid or expired refresh token"))) ∧
    (∃ token, utils.GenerateRefreshToken L cfg issued userID email = .ok token ∧
      (∀ now, utils.ValidateToken L cfg now token false = .error .ErrTokenSignatureInvalid)) := by
  have hacc : ∀ now, utils.ValidateToken L cfg now
      (L.signingString
          { UserID := userID, Email := email
            ExpiresAt := some (jwt.NewNumericDate (issued + cfg.JWT.ExpiresIn))
            NotBefore := none, IssuedAt := some (jwt.NewNumericDate issued) } ++ "." ++
        L.encodeSegment (L.hmacSHA256 cfg.JWT.Secret (L.signingString
          { UserID := userID, Email := email
            ExpiresAt := some (jwt.NewNumericDate (issued + cfg.JWT.ExpiresIn))
            NotBefore := none, IssuedAt := some (jwt.NewNumericDate issued) }))) true =
      .error .ErrTokenSignatureInvalid := by
    intro now
    simp only [utils.ValidateToken, if_true]
    rw [jwt.parse_signed L hL, if_neg (hkeys _)]
  refine ⟨⟨_, rfl, hacc, fun w db => ?_⟩, ⟨_, rfl, fun now => ?_⟩⟩
  · simp only [service.RefreshToken, hacc]
  · simp only [utils.ValidateToken]
    rw [jwt.parse_signed L hL, if_neg (fun h => hkeys _ h.symm)]

/-- C1, amended, at the default configuration and the stand-in library. -/
theorem domain_confusion_rejected_witness :
    (∃ token, utils.GenerateAccessToken sample.lib sample.defaultConfig 0 7 "ann@x.com" =
        .ok token ∧
      (∀ now, utils.ValidateToken sample.lib sample.defaultConfig now token true =
        .error .ErrTokenSignatureInvalid) ∧
      (∀ w db, service.RefreshToken sample.lib sample.defaultConfig w db token =
        .error (errorsNew "invalid or expired refresh token"))) ∧
    (∃ token, utils.GenerateRefreshToken sample.lib sample.defaultConfig 0 7 "ann@x.com" =
        .ok token ∧
      (∀ now, utils.ValidateToken sample.lib sample.defaultConfig now token false =
        .error .ErrTokenSignatureInvalid)) :=
  domain_confusion_rejected sample.lib sample.lib_codecRoundTrip sample.defaultConfig
    (by
      intro m h
      rw [sample.defaultConfig_JWT] at h
      have h2 := congrArg String.data h
      simp [sample.lib] at h2)
    0 7 "ann@x.com"

/-! ## C2: hashing a secret and comparing it -/

/-- C2 at the failing input: `$Valid123` passes the registration policy, yet
`HashPassword` takes its leading `$` for the mark of a hash and returns without
hashing and without an error, and `bcrypt` refuses a 9-byte hash, so
`ComparePassword` of the same secret returns false. -/
theorem dollar_secret_hash_then_compare_fails :
    PasswordPolicy "$Valid123" ∧
    ∀ L : Lib, BcryptRejectsShortHash L → ∀ salt : String,
      (sample.dollarUser.HashPassword L salt).2 = none ∧
      (sample.dollarUser.HashPassword L salt).1.ComparePassword L "$Valid123" = false := by
  refine ⟨by decide, fun L hL salt => ?_⟩
  have h : sample.dollarUser.HashPassword L salt = (sample.dollarUser, none) := by
    unfold models.User.HashPassword
    rw [if_pos (by decide)]
  rw [h]
  exact ⟨rfl, hL _ _ (by decide)⟩

/-- Where `HashPassword` does hash, the round trip holds: for every secret that
passes the registration policy, does not begin with `$` and is hashed without
error, `ComparePassword` of the same secret on the hashed record returns true. -/
theorem hash_then_compare (L : Lib) (hB : BcryptSound L) (salt : String) (u : User)
    (hpolicy : PasswordPolicy u.Password)
    (hdollar : u.Password.toList.head? ≠ some '$')
    (hhashed : (u.HashPassword L salt).2 = none) :
    (u.HashPassword L salt).1.ComparePassword L u.Password = true := by
  have hne : u.Password ≠ "" := by
    intro h
    have h8 := hpolicy.1
    rw [h] at h8
    exact absurd h8 (by decide)
  unfold models.User.HashPassword at hhashed ⊢
  rw [if_neg (not_or.mpr ⟨hne, fun h => hdollar h.2⟩)] at hhashed ⊢
  cases hgen : L.bcryptGenerate u.Password bcryptDefaultCost salt with
  | error err => simp [hgen] at hhashed
  | ok hashed =>
    simp only [models.User.ComparePassword]
    exact hB _ _ _ _ hgen

/-- The round trip at the secret `Valid123!` and the stand-in library. -/
theorem hash_then_compare_witness :
    (sample.plainUser.HashPassword sample.lib "salt").1.ComparePassword sample.lib "Valid123!" =
      true :=
  hash_then_compare sample.lib sample.lib_bcryptSound "salt" sample.plainUser
    (by decide) (by decide) (by decide)

/-! ## Lemmas on the validation of a registration -/

theorem dto.hasUpper_iff (s : String) :
    dto.hasUpper s = true ↔ ∃ c ∈ s.toList, c.isUpper = true := by
  have h : ∀ c : Char, decide ('A' ≤ c ∧ c ≤ 'Z') = c.isUpper := by
    intro c
    simp only [Char.isUpper, ge_iff_le, Bool.decide_and]
    rfl
  simp [dto.hasUpper, h]

theorem dto.hasLower_iff (s : String) :
    dto.hasLower s = true ↔ ∃ c ∈ s.toList, c.isLower = true := by
  have h : ∀ c : Char, decide ('a' ≤ c ∧ c ≤ 'z') = c.isLower := by
    intro c
    simp only [Char.isLower, ge_iff_le, Bool.decide_and]
    rfl
  simp [dto.hasLower, h]

theorem dto.hasNumber_iff (s : String) :
    dto.hasNumber s = true ↔ ∃ c ∈ s.toList, c.isDigit = true := by
  have h : ∀ c : Char, decide ('0' ≤ c ∧ c ≤ '9') = c.isDigit := by
    intro c
    simp only [Char.isDigit, ge_iff_le, Bool.decide_and]
    rfl
  simp [dto.hasNumber, h]

theorem dto.hasSpecial_iff (s : String) :
    dto.hasSpecial s = true ↔ ∃ c ∈ s.toList, c.isAlphanum = false := by
  have h : ∀ c : Char,
      (decide ('A' ≤ c ∧ c ≤ 'Z') || decide ('a' ≤ c ∧ c ≤ 'z') || decide ('0' ≤ c ∧ c ≤ '9')) =
        c.isAlphanum := by
    intro c
    simp only [Char.isAlphanum, Char.isAlpha, Char.isUpper, Char.isLower, Char.isDigit,
      ge_iff_le, Bool.decide_and]
    rfl
  simp only [dto.hasSpecial, h]
  simp

theorem dto.ValidatePassword_eq_none_iff (r : dto.RegisterRequest) :
    r.ValidatePassword = none ↔
      dto.hasUpper r.Password = true ∧ dto.hasLower r.Password = true ∧
      dto.hasNumber r.Password = true ∧ dto.hasSpecial r.Password = true := by
  unfold dto.RegisterRequest.ValidatePassword
  cases hu : dto.hasUpper r.Password <;> cases hl : dto.hasLower r.Password <;>
    cases hn : dto.hasNumber r.Password <;> cases hs : dto.hasSpecial r.Password <;>
    simp [hu, hl, hn, hs]

theorem binding.firstFailing_eq_nil (field : String) (tags : List (String × Bool)) :
    binding.firstFailing field tags = [] ↔ ∀ t ∈ tags, t.2 = true := by
  unfold binding.firstFailing
  cases h : tags.find? (fun t => !t.2) with
  | none =>
    simp only [true_iff]
    intro t ht
    have := List.find?_eq_none.mp h t ht
    simpa using this
  | some t =>
    simp only [List.cons_ne_nil, false_iff]
    intro hall
    have hmem := List.mem_of_find?_eq_some h
    have hp := List.find?_some h
    simp [hall t hmem] at hp

theorem binding.validateRegisterRequest_eq_nil_iff (L : Lib) (req : dto.RegisterRequest) :
    binding.validateRegisterRequest L req = [] ↔
      (req.Name ≠ "" ∧ 2 ≤ req.Name.length ∧ req.Name.length ≤ 100) ∧
      (req.Email ≠ "" ∧ L.isEmail req.Email = true) ∧
      (req.Password ≠ "" ∧ 8 ≤ req.Password.length ∧ req.Password.length ≤ 128) := by
  simp [binding.validateRegisterRequest, binding.firstFailing_eq_nil]

theorem binding.ShouldBindRegister_ok_iff (L : Lib) (req r : dto.RegisterRequest) :
    binding.ShouldBindRegister L (some req) = .ok r ↔
      binding.validateRegisterRequest L req = [] ∧ r = req := by
  cases h : binding.validateRegisterRequest L req with
  | nil => simp [binding.ShouldBindRegister, h, eq_comm]
  | cons e es => simp [binding.ShouldBindRegister, h]

theorem binding.ShouldBindRegister_error (L : Lib) (req : dto.RegisterRequest)
    (h : binding.validateRegisterRequest L req ≠ []) :
    binding.ShouldBindRegister L (some req) =
      .error (.ValidationErrors (binding.validateRegisterRequest L req)) := by
  cases h2 : binding.validateRegisterRequest L req with
  | nil => exact absurd h2 h
  | cons e es => simp [binding.ShouldBindRegister, h2]

/-- Once both validation steps pass, the status is that of one of the three
outcomes of the service call. -/
theorem handler.Register_status_of_valid (L : Lib) (cfg : Config) (w : World) (db : DB)
    (req : dto.RegisterRequest)
    (hbind : binding.ShouldBindRegister L (some req) = .ok req)
    (hpw : handler.ValidateRegisterRequest req = none) :
    (handler.Register L cfg w db (some req)).2.status = 409 ∨
    (handler.Register L cfg w db (some req)).2.status = 500 ∨
    (handler.Register L cfg w db (some req)).2.status = 201 := by
  simp only [handler.Register, hbind, hpw]
  rcases hs : service.Register L cfg w db req with ⟨db1, err | ⟨resp, access, refresh⟩⟩
  · by_cases hmsg : err.Error = "user with this email already exists" <;> simp [hmsg]
  · simp

/-! ## C3: the stored credential -/

theorem sample.normalize_ann (L : Lib) : ToLower L (TrimSpace L "ann@x.com") = "ann@x.com" := by
  rfl

theorem sample.trim_Ann (L : Lib) : TrimSpace L "Ann" = "Ann" := by
  rfl

/-- C3 at the failing input: the registration of Ann with the secret `$Valid123`
passes both validation steps, is answered with 201, and the one row the store
holds afterwards carries `$Valid123`, the plaintext, as its credential. -/
theorem dollar_secret_stored_as_plaintext (L : Lib) (cfg : Config) (w : World)
    (hmail : L.isEmail "ann@x.com" = true) :
    (handler.Register L cfg w sample.emptyDB (some sample.dollarRequest)).2.status = 201 ∧
    (handler.Register L cfg w sample.emptyDB (some sample.dollarRequest)).1.users.map
      (fun u => u.Password) = [sample.dollarRequest.Password] := by
  have hbind : binding.ShouldBindRegister L (some sample.dollarRequest) =
      .ok sample.dollarRequest := by
    rw [binding.ShouldBindRegister_ok_iff, binding.validateRegisterRequest_eq_nil_iff]
    exact ⟨⟨⟨by decide, by decide, by decide⟩, ⟨by decide, hmail⟩, by decide, by decide,
      by decide⟩, rfl⟩
  have hpw : handler.ValidateRegisterRequest sample.dollarRequest = none := by decide
  have hsvc : ∃ row resp access refresh,
      service.Register L cfg w sample.emptyDB sample.dollarRequest =
        ({ users := [row], fault := sample.noFault }, .ok (resp, access, refresh)) ∧
      row.Password = "$Valid123" :=
    ⟨{ ID := w.newUUID, Name := "Ann", Email := "ann@x.com", Password := "$Valid123"
       Avatar := none, Role := "user", CreatedAt := w.now, UpdatedAt := w.now }, _, _, _, rfl, rfl⟩
  obtain ⟨row, resp, access, refresh, hreg, hrow⟩ := hsvc
  have hresp : handler.Register L cfg w sample.emptyDB (some sample.dollarRequest) =
      ({ users := [row], fault := sample.noFault },
       { status := 201, body := .auth resp,
         cookies := utils.SetAuthCookies cfg access refresh }) := by
    simp only [handler.Register, hbind, hpw, hreg]
  rw [hresp]
  exact ⟨rfl, by simp [hrow, sample.dollarRequest]⟩

/-- C3 at the failing input, with the stand-in library. -/
theorem dollar_secret_stored_as_plaintext_witness :
    (handler.Register sample.lib sample.defaultConfig sample.world sample.emptyDB
      (some sample.dollarRequest)).2.status = 201 ∧
    (handler.Register sample.lib sample.defaultConfig sample.world sample.emptyDB
      (some sample.dollarRequest)).1.users.map (fun u => u.Password) = ["$Valid123"] :=
  dollar_secret_stored_as_plaintext sample.lib sample.defaultConfig sample.world (by decide)

/-! ## C4: token round trip -/

/-- Truncation to the second takes less than a second off. -/
theorem jwt.issued_before_exp (issued lifetime : Int) (h : 1000000000 ≤ lifetime) :
    issued < (issued + lifetime) / 1000000000 * 1000000000 := by
  omega

/-- C4: for every user id, email, lifetime and issue time, the access token
validates under `isRefresh=false` at every time before its expiry, and the
refresh token under `isRefresh=true` at every time before its own expiry; the
claims returned carry the id and the email the token was issued for.  The
expiry of a token is its `exp` claim; for a lifetime of a second or more it lies
after the time of issue. -/
theorem token_round_trip (L : Lib) (hL : CodecRoundTrip L) (cfg : Config) (issued : Time)
    (userID : UUID) (email : String) :
    (∃ token, utils.GenerateAccessToken L cfg issued userID email = .ok token ∧
      ∀ now, now < jwt.NumericDate.toTime (jwt.NewNumericDate (issued + cfg.JWT.ExpiresIn)) →
        ∃ claims, utils.ValidateToken L cfg now token false = .ok claims ∧
          claims.UserID = userID ∧ claims.Email = email) ∧
    (∃ token, utils.GenerateRefreshToken L cfg issued userID email = .ok token ∧
      ∀ now, now < jwt.NumericDate.toTime (jwt.NewNumericDate (issued + cfg.JWT.RefreshExpires)) →
        ∃ claims, utils.ValidateToken L cfg now token true = .ok claims ∧
          claims.UserID = userID ∧ claims.Email = email) ∧
    (∀ lifetime : Duration, Second ≤ lifetime →
      issued < jwt.NumericDate.toTime (jwt.NewNumericDate (issued + lifetime))) := by
  refine ⟨⟨_, rfl, fun now hnow => ?_⟩, ⟨_, rfl, fun now hnow => ?_⟩, fun lifetime hlife => ?_⟩
  rotate_left 2
  · exact jwt.issued_before_exp issued lifetime hlife
  · refine ⟨⟨userID, email, some (jwt.NewNumericDate (issued + cfg.JWT.ExpiresIn)), none,
      some (jwt.NewNumericDate issued)⟩, ?_, rfl, rfl⟩
    simp only [utils.ValidateToken]
    rw [jwt.parse_signed L hL, jwt.validateClaims_exp, if_pos hnow]
    simp
  · refine ⟨⟨userID, email, some (jwt.NewNumericDate (issued + cfg.JWT.RefreshExpires)), none,
      some (jwt.NewNumericDate issued)⟩, ?_, rfl, rfl⟩
    simp only [utils.ValidateToken, if_true]
    rw [jwt.parse_signed L hL, jwt.validateClaims_exp, if_pos hnow]
    simp

/-- C4 at the default configuration (lifetimes of one hour and seven days) and
the stand-in library: both tokens validate at the time of issue. -/
theorem token_round_trip_witness :
    (∃ token, utils.GenerateAccessToken sample.lib sample.defaultConfig 0 7 "ann@x.com" =
        .ok token ∧
      ∃ claims, utils.ValidateToken sample.lib sample.defaultConfig 0 token false = .ok claims ∧
        claims.UserID = 7 ∧ claims.Email = "ann@x.com") ∧
    (∃ token, utils.GenerateRefreshToken sample.lib sample.defaultConfig 0 7 "ann@x.com" =
        .ok token ∧
      ∃ claims, utils.ValidateToken sample.lib sample.defaultConfig 0 token true = .ok claims ∧
        claims.UserID = 7 ∧ claims.Email = "ann@x.com") := by
  obtain ⟨⟨t1, h1, v1⟩, ⟨t2, h2, v2⟩, _⟩ :=
    token_round_trip sample.lib sample.lib_codecRoundTrip sample.defaultConfig 0 7 "ann@x.com"
  refine ⟨⟨t1, h1, v1 0 ?_⟩, ⟨t2, h2, v2 0 ?_⟩⟩
  · rw [sample.defaultConfig_JWT]
    decide
  · rw [sample.defaultConfig_JWT]
    decide

/-! ## C5: the registration policy -/

theorem dto.ValidatePassword_eq_none_iff_classes (r : dto.RegisterRequest) :
    r.ValidatePassword = none ↔
      (∃ c ∈ r.Password.toList, c.isUpper = true) ∧ (∃ c ∈ r.Password.toList, c.isLower = true) ∧
      (∃ c ∈ r.Password.toList, c.isDigit = true) ∧
      (∃ c ∈ r.Password.toList, c.isAlphanum = false) := by
  rw [dto.ValidatePassword_eq_none_iff, dto.hasUpper_iff, dto.hasLower_iff, dto.hasNumber_iff,
    dto.hasSpecial_iff]

theorem handler.ValidateRegisterRequest_eq (req : dto.RegisterRequest) :
    handler.ValidateRegisterRequest req = req.ValidatePassword := by
  unfold handler.ValidateRegisterRequest
  cases req.ValidatePassword <;> rfl

theorem utils.tooShort_response (L : Lib) :
    utils.ValidationErrorJSON L (.ValidationErrors [{ Field := "Password", Tag := "min" }]) =
      { status := 400
        body := .failure "Validation failed" [("password", ["Value is too short"])]
        cookies := [] } := by
  rfl

/-- C5: for a request whose name and email bind, the two validation steps of
`AuthHandler.Register` let the request through to the service exactly when the
secret has 8 to 128 characters with an uppercase letter, a lowercase letter, a
digit and a non-alphanumeric character; the request is answered with 400 exactly
when it does not; and a non-empty secret shorter than 8 is answered by the
length rule of the binding, whatever its characters are. -/
theorem registration_secret_policy (L : Lib) (cfg : Config) (w : World) (db : DB)
    (req : dto.RegisterRequest)
    (hname : req.Name ≠ "" ∧ 2 ≤ req.Name.length ∧ req.Name.length ≤ 100)
    (hemail : req.Email ≠ "" ∧ L.isEmail req.Email = true) :
    ((binding.ShouldBindRegister L (some req) = .ok req ∧
        handler.ValidateRegisterRequest req = none) ↔ PasswordPolicy req.Password) ∧
    ((handler.Register L cfg w db (some req)).2.status = 400 ↔ ¬ PasswordPolicy req.Password) ∧
    (req.Password ≠ "" → req.Password.length < 8 →
      handler.Register L cfg w db (some req) =
        (db, { status := 400
               body := .failure "Validation failed" [("password", ["Value is too short"])]
               cookies := [] })) := by
  have hacc : (binding.ShouldBindRegister L (some req) = .ok req ∧
      handler.ValidateRegisterRequest req = none) ↔ PasswordPolicy req.Password := by
    rw [binding.ShouldBindRegister_ok_iff, binding.validateRegisterRequest_eq_nil_iff,
      handler.ValidateRegisterRequest_eq, dto.ValidatePassword_eq_none_iff_classes]
    constructor
    · rintro ⟨⟨⟨_, _, _, h8, h128⟩, _⟩, hclasses⟩
      exact ⟨h8, h128, hclasses⟩
    · rintro ⟨h8, h128, hclasses⟩
      refine ⟨⟨⟨hname, hemail, ?_, h8, h128⟩, rfl⟩, hclasses⟩
      intro h
      rw [h] at h8
      exact absurd h8 (by decide)
  refine ⟨hacc, ?_, ?_⟩
  · rw [← hacc]
    constructor
    · rintro h400 ⟨hbind, hpw⟩
      rcases handler.Register_status_of_valid L cfg w db req hbind hpw with h | h | h <;>
        rw [h] at h400 <;> exact absurd h400 (by decide)
    · intro hrej
      cases hb : binding.ShouldBindRegister L (some req) with
      | error err => simp [handler.Register, hb, utils.ValidationErrorJSON]
      | ok r =>
        have hr : r = req := ((binding.ShouldBindRegister_ok_iff L req r).mp hb).2
        subst hr
        cases hv : handler.ValidateRegisterRequest r with
        | none => exact absurd ⟨hb, hv⟩ hrej
        | some err => simp [handler.Register, hb, hv, handler.HandleValidationError]
  · intro hne hshort
    have herrs : binding.validateRegisterRequest L req =
        [{ Field := "Password", Tag := "min" }] := by
      have h1 := (binding.firstFailing_eq_nil "Name"
        [("required", decide (req.Name ≠ "")), ("min", decide (2 ≤ req.Name.length)),
         ("max", decide (req.Name.length ≤ 100))]).mpr (by simp [hname])
      have h2 := (binding.firstFailing_eq_nil "Email"
        [("required", decide (req.Email ≠ "")), ("email", L.isEmail req.Email)]).mpr
        (by simp [hemail])
      have h3 : ¬ 8 ≤ req.Password.length := by omega
      simp only [binding.validateRegisterRequest, h1, h2, List.nil_append]
      simp [binding.firstFailing, List.find?, hne, h3]
    have hb := binding.ShouldBindRegister_error L req (by rw [herrs]; simp)
    simp only [handler.Register, hb, herrs, utils.tooShort_response]

/-- C5 at the two secrets the specification names: `short1!` is answered by the
length rule and `Valid123!` passes both validation steps. -/
theorem registration_secret_policy_witness :
    handler.Register sample.lib sample.defaultConfig sample.world sample.emptyDB
        (some { Name := "Ann", Email := "ann@x.com", Password := "short1!" }) =
      (sample.emptyDB,
       { status := 400
         body := .failure "Validation failed" [("password", ["Value is too short"])]
         cookies := [] }) ∧
    (binding.ShouldBindRegister sample.lib
        (some { Name := "Ann", Email := "ann@x.com", Password := "Valid123!" }) =
      .ok { Name := "Ann", Email := "ann@x.com", Password := "Valid123!" } ∧
     handler.ValidateRegisterRequest { Name := "Ann", Email := "ann@x.com", Password := "Valid123!" } =
      none) :=
  ⟨(registration_secret_policy sample.lib sample.defaultConfig sample.world sample.emptyDB
      { Name := "Ann", Email := "ann@x.com", Password := "short1!" }
      (by decide) (by decide)).2.2 (by decide) (by decide),
   (registration_secret_policy sample.lib sample.defaultConfig sample.world sample.emptyDB
      { Name := "Ann", Email := "ann@x.com", Password := "Valid123!" }
      (by decide) (by decide)).1.mpr (by decide)⟩

/-! ## C6: the first failing rule is the one reported -/

theorem dto.hasUpper_eq (s : String) : dto.hasUpper s = s.toList.any Char.isUpper := by
  rw [Bool.eq_iff_iff, dto.hasUpper_iff]
  simp

theorem dto.hasLower_eq (s : String) : dto.hasLower s = s.toList.any Char.isLower := by
  rw [Bool.eq_iff_iff, dto.hasLower_iff]
  simp

theorem dto.hasNumber_eq (s : String) : dto.hasNumber s = s.toList.any Char.isDigit := by
  rw [Bool.eq_iff_iff, dto.hasNumber_iff]
  simp

theorem dto.hasSpecial_eq (s : String) :
    dto.hasSpecial s = s.toList.any (fun c => !c.isAlphanum) := by
  rw [Bool.eq_iff_iff, dto.hasSpecial_iff]
  simp

/-- C6: when a password violates a character-class rule, `ValidatePassword`
returns the one `ValidationError` with field `password` and the message of the
first rule that fails in the order uppercase, lowercase, number, special, and the
handler answers 400 with that single message under `password`. -/
theorem first_failing_rule_reported (r : dto.RegisterRequest)
    (hviolates : ∃ rule ∈ passwordRules, rule.1 r.Password = false) :
    ∃ rule, passwordRules.find? (fun rule => !rule.1 r.Password) = some rule ∧
      r.ValidatePassword = some { Field := "password", Message := rule.2 } ∧
      handler.ValidateRegisterRequest r = some { Field := "password", Message := rule.2 } ∧
      handler.HandleValidationError { Field := "password", Message := rule.2 } =
        { status := 400
          body := .failure "Validation failed" [("password", [rule.2])]
          cookies := [] } := by
  have hfind : passwordRules.find? (fun rule => !rule.1 r.Password) ≠ none := by
    intro hnone
    obtain ⟨rule, hmem, hfalse⟩ := hviolates
    have := List.find?_eq_none.mp hnone rule hmem
    simp [hfalse] at this
  rw [handler.ValidateRegisterRequest_eq]
  unfold dto.RegisterRequest.ValidatePassword
  simp only [dto.hasUpper_eq, dto.hasLower_eq, dto.hasNumber_eq, dto.hasSpecial_eq]
  simp only [passwordRules, List.find?, String.toList] at hfind ⊢
  rcases Bool.eq_false_or_eq_true (r.Password.data.any Char.isUpper) with hu | hu <;>
    rcases Bool.eq_false_or_eq_true (r.Password.data.any Char.isLower) with hl | hl <;>
    rcases Bool.eq_false_or_eq_true (r.Password.data.any Char.isDigit) with hn | hn <;>
    rcases Bool.eq_false_or_eq_true (r.Password.data.any (fun c => !c.isAlphanum)) with hs | hs <;>
    simp only [hu, hl, hn, hs] at hfind ⊢ <;>
    simp [handler.HandleValidationError] at hfind ⊢

/-- C6 at `valid123`, which lacks both an uppercase letter and a special
character: the uppercase message is the one reported. -/
theorem first_failing_rule_reported_witness :
    ∃ rule, passwordRules.find?
        (fun rule => !rule.1 (dto.RegisterRequest.mk "Ann" "ann@x.com" "valid123").Password) =
        some rule ∧
      (dto.RegisterRequest.mk "Ann" "ann@x.com" "valid123").ValidatePassword =
        some { Field := "password", Message := rule.2 } ∧
      handler.ValidateRegisterRequest (dto.RegisterRequest.mk "Ann" "ann@x.com" "valid123") =
        some { Field := "password", Message := rule.2 } ∧
      handler.HandleValidationError { Field := "password", Message := rule.2 } =
        { status := 400
          body := .failure "Validation failed" [("password", [rule.2])]
          cookies := [] } :=
  first_failing_rule_reported (dto.RegisterRequest.mk "Ann" "ann@x.com" "valid123")
    ⟨_, List.mem_cons_self _ _, by decide⟩

/-! ## C7: login failures are indistinguishable -/

/-- C7: a login whose email the store does not know and a login whose email is
known but whose password does not compare get the same error from the service,
and, for requests that bind, the same response from the handler: 401 with the
message `invalid email or password` and no cookie. -/
theorem login_failures_indistinguishable (L : Lib) (cfg : Config) (w1 w2 : World)
    (db1 db2 : DB) (req1 req2 : dto.LoginRequest) (user : User)
    (hbind1 : binding.ShouldBindLogin L (some req1) = .ok req1)
    (hbind2 : binding.ShouldBindLogin L (some req2) = .ok req2)
    (hunknown : repository.FindByEmail db1 (ToLower L (TrimSpace L req1.Email)) =
      .error .recordNotFound)
    (hknown : repository.FindByEmail db2 (ToLower L (TrimSpace L req2.Email)) = .ok user)
    (hwrong : user.ComparePassword L req2.Password = false) :
    service.Login L cfg w1 db1 req1 = service.Login L cfg w2 db2 req2 ∧
    handler.Login L cfg w1 db1 (some req1) = handler.Login L cfg w2 db2 (some req2) ∧
    handler.Login L cfg w1 db1 (some req1) =
      { status := 401, body := .failure "invalid email or password" [], cookies := [] } := by
  have h1 : service.Login L cfg w1 db1 req1 = .error (errorsNew "invalid email or password") := by
    simp [service.Login, hunknown, GoError.isRecordNotFound]
  have h2 : service.Login L cfg w2 db2 req2 = .error (errorsNew "invalid email or password") := by
    simp [service.Login, hknown, hwrong]
  have r1 : handler.Login L cfg w1 db1 (some req1) =
      { status := 401, body := .failure "invalid email or password" [], cookies := [] } := by
    simp only [handler.Login, hbind1, h1]
    rfl
  have r2 : handler.Login L cfg w2 db2 (some req2) =
      { status := 401, body := .failure "invalid email or password" [], cookies := [] } := by
    simp only [handler.Login, hbind2, h2]
    rfl
  exact ⟨h1.trans h2.symm, r1.trans r2.symm, r1⟩

/-- C7 at the stand-in library: Ann's login against an empty store and her login
with the wrong password against a store that holds her. -/
theorem login_failures_indistinguishable_witness :
    service.Login sample.lib sample.defaultConfig sample.world sample.emptyDB
        { Email := "ann@x.com", Password := "Valid123!" } =
      service.Login sample.lib sample.defaultConfig sample.world sample.annDB
        { Email := "ann@x.com", Password := "Wrong123!" } ∧
    handler.Login sample.lib sample.defaultConfig sample.world sample.emptyDB
        (some { Email := "ann@x.com", Password := "Valid123!" }) =
      handler.Login sample.lib sample.defaultConfig sample.world sample.annDB
        (some { Email := "ann@x.com", Password := "Wrong123!" }) ∧
    handler.Login sample.lib sample.defaultConfig sample.world sample.emptyDB
        (some { Email := "ann@x.com", Password := "Valid123!" }) =
      { status := 401, body := .failure "invalid email or password" [], cookies := [] } :=
  login_failures_indistinguishable sample.lib sample.defaultConfig sample.world sample.world
    sample.emptyDB sample.annDB { Email := "ann@x.com", Password := "Valid123!" }
    { Email := "ann@x.com", Password := "Wrong123!" } sample.ann
    rfl rfl rfl rfl (by decide)

/-! ## C8: failures of the refresh -/

theorem jwt.signed_ne_empty (a b : String) : a ++ "." ++ b ≠ "" := by
  intro h
  have h2 := congrArg String.length h
  simp only [String.length_append] at h2
  have h3 : ".".length = 1 := rfl
  have h4 : "".length = 0 := rfl
  omega

theorem http.cookie_single (name value : String) :
    http.Request.Cookie { cookies := [(name, value)], headers := [] } name = some value := by
  simp [http.Request.Cookie]

/-- A request whose cookie `access_token` carries a token that
`GenerateAccessToken` wrote is read as carrying that token, and the token
validates as an access token before its expiry. -/
theorem middleware.valid_cookie_passes (L : Lib) (hL : CodecRoundTrip L) (cfg : Config)
    (issued : Time) (userID : UUID) (email : String) (w : World)
    (hnow : w.now < jwt.NumericDate.toTime (jwt.NewNumericDate (issued + cfg.JWT.ExpiresIn))) :
    ∃ token, utils.GenerateAccessToken L cfg issued userID email = .ok token ∧
      middleware.extractToken { cookies := [("access_token", token)], headers := [] } = token ∧
      token ≠ "" ∧
      utils.ValidateToken L cfg w.now token false =
        .ok { UserID := userID, Email := email
              ExpiresAt := some (jwt.NewNumericDate (issued + cfg.JWT.ExpiresIn))
              NotBefore := none, IssuedAt := some (jwt.NewNumericDate issued) } := by
  refine ⟨_, rfl, ?_, jwt.signed_ne_empty _ _, ?_⟩
  · simp only [middleware.extractToken, constants.CookieAccessToken, http.cookie_single]
    rw [if_pos (jwt.signed_ne_empty _ _)]
  · simp only [utils.ValidateToken]
    rw [jwt.parse_signed L hL, jwt.validateClaims_exp, if_pos hnow]
    simp

theorem repository.FindByEmail_of_mem (db : DB) (email : String)
    (hfault : db.fault .FindByEmail = none) (hmem : ∃ u ∈ db.users, u.Email = email) :
    ∃ user, repository.FindByEmail db email = .ok user := by
  unfold repository.FindByEmail
  rw [hfault]
  cases hfind : db.users.find? (fun u => decide (u.Email = email)) with
  | some user => exact ⟨user, rfl⟩
  | none =>
    obtain ⟨u, hu, he⟩ := hmem
    have := List.find?_eq_none.mp hfind u hu
    simp [he] at this

/-- C10: when the store holds an identity whose email is the lower-cased,
trimmed form of the email of a registration request, and answers the lookup,
`authService.Register` returns the error `user with this email already exists`
with no tokens and leaves the store as it was, and for a request that passes
validation `AuthHandler.Register` answers 409 with that message, sets no cookie
and leaves the store as it was. -/
theorem duplicate_email_rejected (L : Lib) (cfg : Config) (w : World) (db : DB)
    (req : dto.RegisterRequest)
    (hfault : db.fault .FindByEmail = none)
    (hregistered : ∃ u ∈ db.users, u.Email = ToLower L (TrimSpace L req.Email)) :
    service.Register L cfg w db req =
      (db, .error (errorsNew "user with this email already exists")) ∧
    (binding.ShouldBindRegister L (some req) = .ok req →
      handler.ValidateRegisterRequest req = none →
      handler.Register L cfg w db (some req) =
        (db, { status := 409, body := .failure "user with this email already exists" []
               cookies := [] })) := by
  obtain ⟨user, hfound⟩ := repository.FindByEmail_of_mem db _ hfault hregistered
  have hsvc : service.Register L cfg w db req =
      (db, .error (errorsNew "user with this email already exists")) := by
    simp only [service.Register, hfound]
  refine ⟨hsvc, fun hbind hpw => ?_⟩
  simp only [handler.Register, hbind, hpw, hsvc]
  rfl

/-- C10 at the example of the specification: `A@B.com` after `a@b.com`. -/
theorem duplicate_email_rejected_witness :
    service.Register sample.lib sample.defaultConfig sample.world sample.abDB
        { Name := "Bob", Email := "A@B.com", Password := "Valid123!" } =
      (sample.abDB, .error (errorsNew "user with this email already exists")) ∧
    handler.Register sample.lib sample.defaultConfig sample.world sample.abDB
        (some { Name := "Bob", Email := "A@B.com", Password := "Valid123!" }) =
      (sample.abDB, { status := 409, body := .failure "user with this email already exists" []
                      cookies := [] }) :=
  have h := duplicate_email_rejected sample.lib sample.defaultConfig sample.world sample.abDB
    { Name := "Bob", Email := "A@B.com", Password := "Valid123!" } rfl
    ⟨_, List.mem_cons_self _ _, by decide⟩
  ⟨h.1, h.2 rfl (by decide)⟩

/-! ## C11: the cookies of a token pair -/

theorem float64.secondsTrunc_of_whole (d : Int) (h : d % 1000000000 = 0) :
    (if 0 ≤ d then (float64.secondsTrunc d.toNat : Int)
      else -(float64.secondsTrunc (-d).toNat : Int)) = d / 1000000000 := by
  unfold float64.secondsTrunc
  by_cases hd : (0 : Int) ≤ d
  · obtain ⟨n, rfl⟩ := Int.eq_ofNat_of_zero_le hd
    have hn : n % 1000000000 = 0 := by omega
    simp only [hd, if_true, Int.toNat_ofNat, hn]
    omega
  · obtain ⟨n, hn0⟩ := Int.eq_ofNat_of_zero_le (show (0 : Int) ≤ -d by omega)
    have hdn : d = -(n : Int) := by omega
    subst hdn
    have hn : n % 1000000000 = 0 := by omega
    simp only [hd, if_false, neg_neg, Int.toNat_ofNat, hn, if_true]
    omega

/-- For a duration of whole seconds `int(d.Seconds())` is the number of those
seconds: `float64(nsec)/1e9` is zero and `float64(sec)` is exact. -/
theorem utils.wholeSeconds_of_whole (d : Duration) (h : d % Second = 0) :
    utils.wholeSeconds d = d / Second :=
  float64.secondsTrunc_of_whole d h

set_option maxRecDepth 20000 in
/-- C11, as stated, fails: with `JWT_EXPIRES_IN=15817298423145364s` the
multiplication in `parseDuration` wraps and `config.Load` stores an access
lifetime of 8589934592999999488 nanoseconds, 8589934592 whole seconds; the
`float64` sum in `Seconds` rounds up to the next integer and the cookie
`access_token` gets the max-age 8589934593. -/
theorem max_age_off_by_one_after_rounding :
    (config.Load sample.overflowEnv).JWT.ExpiresIn = 8589934592999999488 ∧
    (config.Load sample.overflowEnv).JWT.ExpiresIn / Second = 8589934592 ∧
    (utils.SetAuthCookies (config.Load sample.overflowEnv) "a.b.c" "d.e.f").map
      (fun c => (c.Name, c.MaxAge)) = [("access_token", 8589934593), ("refresh_token", 604800)] := by
  refine ⟨by decide, by decide, by decide⟩

/-- C11, amended: for every token pair and every configuration `SetAuthCookies`
emits exactly two cookies, `access_token` and `refresh_token` in that order, each
with its own token as value, `HttpOnly`, `Secure` exactly in production,
`SameSite` strict in production and lax otherwise, path `/`, and as max-age
`int(lifetime.Seconds())` of its own lifetime, which is that lifetime in seconds
whenever the lifetime is a whole number of seconds. -/
theorem auth_cookies (cfg : Config) (accessToken refreshToken : String) :
    utils.SetAuthCookies cfg accessToken refreshToken =
      [ { Name := "access_token", Value := accessToken, HttpOnly := true
          Secure := decide (cfg.Server.Env = "production")
          SameSite := if cfg.Server.Env = "production" then .SameSiteStrictMode
            else .SameSiteLaxMode
          MaxAge := utils.wholeSeconds cfg.JWT.ExpiresIn, Path := "/" },
        { Name := "refresh_token", Value := refreshToken, HttpOnly := true
          Secure := decide (cfg.Server.Env = "production")
          SameSite := if cfg.Server.Env = "production" then .SameSiteStrictMode
            else .SameSiteLaxMode
          MaxAge := utils.wholeSeconds cfg.JWT.RefreshExpires, Path := "/" } ] ∧
    (cfg.JWT.ExpiresIn % Second = 0 →
      utils.wholeSeconds cfg.JWT.ExpiresIn = cfg.JWT.ExpiresIn / Second) ∧
    (cfg.JWT.RefreshExpires % Second = 0 →
      utils.wholeSeconds cfg.JWT.RefreshExpires = cfg.JWT.RefreshExpires / Second) := by
  refine ⟨?_, utils.wholeSeconds_of_whole _, utils.wholeSeconds_of_whole _⟩
  simp only [utils.SetAuthCookies, utils.getSameSite, decide_eq_true_eq]

set_option maxRecDepth 20000 in
/-- C11, amended, at the default configuration: max-ages of 3600 and 604800
seconds, lax cookies that are not marked secure. -/
theorem auth_cookies_witness :
    utils.SetAuthCookies sample.defaultConfig "a.b.c" "d.e.f" =
      [ { Name := "access_token", Value := "a.b.c", HttpOnly := true, Secure := false
          SameSite := .SameSiteLaxMode, MaxAge := 3600, Path := "/" },
        { Name := "refresh_token", Value := "d.e.f", HttpOnly := true, Secure := false
          SameSite := .SameSiteLaxMode, MaxAge := 604800, Path := "/" } ] := by
  have h := auth_cookies sample.defaultConfig "a.b.c" "d.e.f"
  rw [h.1, h.2.1 (by decide), h.2.2 (by decide)]
  decide

/-! ## C12: the token the middleware validates -/

theorem middleware.bearer_cases (hdr rest : String) (p : Prop) [Decidable p]
    (hp : p → hdr ≠ "") :
    (if hdr ≠ "" ∧ p then rest else "") =
        (if p ∧ rest ≠ "" then some rest else none).getD "" ∧
    (∀ t, (if p ∧ rest ≠ "" then some rest else none) = some t → t ≠ "") := by
  by_cases h1 : p
  · by_cases h2 : rest = ""
    · simp [h1, h2, hp h1]
    · refine ⟨by simp [h1, h2, hp h1], fun t ht => ?_⟩
      rw [if_pos ⟨h1, h2⟩] at ht
      cases ht
      exact h2
  · simp [h1]

/-- The token `JWTAuthMiddleware` works with is empty exactly when what it reads
of the request presents none, and is the presented token otherwise. -/
theorem middleware.extractToken_eq (req : Request) :
    middleware.extractToken req = (presentedToken req).getD "" ∧
    (∀ t, presentedToken req = some t → t ≠ "") := by
  have hb := middleware.bearer_cases (req.GetHeader "Authorization")
    (String.mk ((req.GetHeader "Authorization").toList.drop 7))
    ("Bearer ".toList.isPrefixOf (req.GetHeader "Authorization").toList = true)
    (by
      intro hp h0
      rw [h0] at hp
      exact absurd hp (by decide))
  unfold middleware.extractToken presentedToken bearerToken
  rw [show constants.CookieAccessToken = "access_token" from rfl]
  cases hc : req.Cookie "access_token" with
  | none => exact hb
  | some cookie =>
    by_cases hck : cookie = ""
    · simp only [hck, ne_eq, not_true_eq_false, if_false]
      exact hb
    · simp only [hck, ne_eq, not_false_eq_true, if_true, Option.getD_some, Option.some.injEq,
        true_and]
      intro t ht
      rw [← ht]
      exact hck

/-- The middleware answers as the authentication step does on the token
presented in what it reads of the request. -/
theorem middleware.JWTAuthMiddleware_eq (L : Lib) (cfg : Config) (w : World) (req : Request) :
    middleware.JWTAuthMiddleware L cfg w req = authOutcome L cfg w (presentedToken req) := by
  obtain ⟨hext, hne⟩ := middleware.extractToken_eq req
  unfold middleware.JWTAuthMiddleware authOutcome
  rw [hext]
  cases hp : presentedToken req with
  | none => simp
  | some t => simp [hne t hp]

/-- The cookie `c.Cookie` returns is the unescaped value of the cookie of the
request, empty when the value does not unescape. -/
theorem gin.Context_Cookie (L : Lib) (r : http.Incoming) (name : String) :
    (gin.Context L r).Cookie name =
      (r.Cookie name).map (fun value => (L.queryUnescape value).getD "") := by
  unfold gin.Context http.Request.Cookie http.Incoming.Cookie
  induction r.cookies with
  | nil => rfl
  | cons kv rest ih =>
    by_cases h : kv.1 = name
    · simp [List.find?, h]
    · simpa [List.find?, h] using ih

theorem gin.Context_GetHeader (L : Lib) (r : http.Incoming) (key : String) :
    (gin.Context L r).GetHeader key = r.GetHeader key := rfl

/-- The header a parsed request gives under a name is trimmed. -/
theorem http.getHeader_trimmed (r : http.Incoming) (h : r.Parsed) (key : String) :
    http.Trimmed (r.GetHeader key) := by
  unfold http.Incoming.GetHeader
  cases hf : r.headers.find? (fun kv => decide (kv.1 = key)) with
  | none => decide
  | some kv => exact h kv (List.mem_of_find?_eq_some hf)

/-- A trimmed header that starts with `Bearer ` has something after it. -/
theorem http.bearer_rest_ne (hdr : String) (ht : http.Trimmed hdr)
    (hp : "Bearer ".toList.isPrefixOf hdr.toList = true) :
    String.mk (hdr.toList.drop 7) ≠ "" := by
  intro h0
  obtain ⟨t, ht2⟩ := List.isPrefixOf_iff_prefix.mp hp
  have hd : hdr.toList.drop 7 = t := by
    rw [← ht2]
    exact List.drop_left' rfl
  have ht0 : t = [] := by
    rw [hd] at h0
    exact congrArg String.toList h0
  rw [ht0, List.append_nil] at ht2
  have hlast := ht.2
  rw [← ht2] at hlast
  exact hlast (by decide)

/-- Of a parsed request, the token presented in what the handlers read is the
token C12 names, with the cookie as `c.Cookie` reads it. -/
theorem gin.presentedToken_Context (L : Lib) (r : http.Incoming) (h : r.Parsed) :
    presentedToken (gin.Context L r) = readToken L r := by
  have hb : bearerToken (gin.Context L r) = claimedBearer (r.GetHeader "Authorization") := by
    unfold bearerToken claimedBearer
    rw [gin.Context_GetHeader]
    by_cases hp : "Bearer ".toList.isPrefixOf (r.GetHeader "Authorization").toList = true
    · rw [if_pos hp, if_pos ⟨hp, http.bearer_rest_ne _ (http.getHeader_trimmed r h _) hp⟩]
    · rw [if_neg hp, if_neg (fun hc => hp hc.1)]
  unfold presentedToken readToken
  rw [gin.Context_Cookie, hb]
  cases r.Cookie "access_token" with
  | none => rfl
  | some value => rfl

theorem middleware.bearer_drop (token : String) :
    "Bearer ".toList.isPrefixOf ("Bearer " ++ token).toList = true ∧
    String.mk (("Bearer " ++ token).toList.drop 7) = token := by
  have hl : ("Bearer " ++ token).toList = "Bearer ".toList ++ token.toList :=
    String.data_append _ _
  constructor
  · rw [List.isPrefixOf_iff_prefix, hl]
    exact List.prefix_append _ _
  · rw [hl]
    have hd : List.drop 7 ("Bearer ".toList ++ token.toList) = token.toList :=
      List.drop_left' rfl
    rw [hd]
    rfl

/-- C12, as stated, fails: take the request whose cookie `access_token` has the
value `%zz`, present and not empty, and whose `Authorization` header is
`Bearer ` followed by the access token just issued to user 7.  By the claim the
token passed to validation is `%zz`, which the stand-in library answers with
401 `Invalid or expired token`.  `url.QueryUnescape` fails on `%zz`, as the
stand-in library does, so `c.Cookie` returns the empty string and the
middleware, under the default configuration and whatever the MAC and the codec
are, takes the token of the header, which is another text, validates it and
lets the request through as user 7. -/
theorem undecodable_cookie_is_passed_over :
    (∀ token, (sample.strayCookieRequest token).Cookie "access_token" = some "%zz" ∧
      claimedToken (sample.strayCookieRequest token) = some "%zz") ∧
    sample.lib.queryUnescape "%zz" = none ∧
    authOutcome sample.lib sample.defaultConfig sample.world (some "%zz") =
      .error { status := 401, body := .failure "Invalid or expired token" [], cookies := [] } ∧
    ∀ L : Lib, CodecRoundTrip L → L.queryUnescape "%zz" = none →
      ∃ token,
        utils.GenerateAccessToken L sample.defaultConfig 0 7 "ann@x.com" = .ok token ∧
        token ≠ "%zz" ∧
        middleware.extractToken (gin.Context L (sample.strayCookieRequest token)) = token ∧
        middleware.JWTAuthMiddleware L sample.defaultConfig sample.world
            (gin.Context L (sample.strayCookieRequest token)) = .ok (7, "ann@x.com") := by
  refine ⟨fun token => ⟨rfl, rfl⟩, by decide, rfl, fun L hL hq => ?_⟩
  obtain ⟨token, hgen, -, hne, hv⟩ :=
    middleware.valid_cookie_passes L hL sample.defaultConfig 0 7 "ann@x.com" sample.world
      (by rw [sample.defaultConfig_JWT]; decide)
  have hctx : gin.Context L (sample.strayCookieRequest token) =
      { cookies := [("access_token", "")], headers := [("Authorization", "Bearer " ++ token)] } := by
    simp [gin.Context, sample.strayCookieRequest, hq]
  have hext : middleware.extractToken (gin.Context L (sample.strayCookieRequest token)) =
      token := by
    obtain ⟨hpre, hdrop⟩ := middleware.bearer_drop token
    have hhdr : http.Request.GetHeader
        { cookies := [("access_token", "")], headers := [("Authorization", "Bearer " ++ token)] }
        "Authorization" = "Bearer " ++ token := by
      simp [http.Request.GetHeader]
    have hck : http.Request.Cookie
        { cookies := [("access_token", "")], headers := [("Authorization", "Bearer " ++ token)] }
        "access_token" = some "" := by
      simp [http.Request.Cookie]
    have hne2 : "Bearer " ++ token ≠ "" := by
      intro h
      have h2 := congrArg String.length h
      simp only [String.length_append] at h2
      have h3 : "Bearer ".length = 7 := rfl
      have h4 : "".length = 0 := rfl
      omega
    rw [hctx]
    unfold middleware.extractToken
    rw [show constants.CookieAccessToken = "access_token" from rfl, hck]
    simp only [ne_eq, not_true_eq_false, if_false, hhdr]
    rw [if_pos ⟨hne2, hpre⟩, hdrop]
  refine ⟨token, hgen, ?_, hext, ?_⟩
  · intro h
    have hgen2 : utils.GenerateAccessToken L sample.defaultConfig 0 7 "ann@x.com" =
        .ok (L.signingString ⟨7, "ann@x.com",
          some (jwt.NewNumericDate (0 + sample.defaultConfig.JWT.ExpiresIn)), none,
          some (jwt.NewNumericDate 0)⟩ ++ "." ++
          L.encodeSegment (L.hmacSHA256 sample.defaultConfig.JWT.Secret (L.signingString
            ⟨7, "ann@x.com", some (jwt.NewNumericDate (0 + sample.defaultConfig.JWT.ExpiresIn)),
              none, some (jwt.NewNumericDate 0)⟩))) := rfl
    rw [hgen2] at hgen
    have htok := Except.ok.inj hgen
    rw [← htok] at h
    have hmem : '.' ∈ ("%zz" : String).toList := by
      rw [← h]
      simp [String.toList, String.data_append]
    exact absurd hmem (by decide)
  · unfold middleware.JWTAuthMiddleware
    rw [hext, if_neg hne, hv]

/-- C12, amended: for every request the server has parsed (so that no header
value begins or ends with a blank) the middleware answers as the authentication
step does on this token: the value of the cookie `access_token` as `c.Cookie`
reads it, that is unescaped, and empty when it does not unescape, whenever that
cookie is present and the value so read is not empty, whatever the
`Authorization` header is; otherwise the `Authorization` header with `Bearer `
removed when the header starts with `Bearer `; otherwise no token, and the
request is rejected as `Unauthorized` without validating anything. -/
theorem middleware_validates_read_token (L : Lib) (cfg : Config) (w : World)
    (r : http.Incoming) (hparsed : r.Parsed) :
    middleware.JWTAuthMiddleware L cfg w (gin.Context L r) =
      authOutcome L cfg w (readToken L r) ∧
    (∀ value, r.Cookie "access_token" = some value → (L.queryUnescape value).getD "" ≠ "" →
      middleware.JWTAuthMiddleware L cfg w (gin.Context L r) =
        authOutcome L cfg w (some ((L.queryUnescape value).getD ""))) ∧
    ((r.Cookie "access_token" = none ∨
        ∃ value, r.Cookie "access_token" = some value ∧ (L.queryUnescape value).getD "" = "") →
      middleware.JWTAuthMiddleware L cfg w (gin.Context L r) =
        authOutcome L cfg w (claimedBearer (r.GetHeader "Authorization"))) ∧
    (readToken L r = none →
      middleware.JWTAuthMiddleware L cfg w (gin.Context L r) =
        .error { status := 401, body := .failure "Unauthorized" [], cookies := [] }) := by
  have hmain : middleware.JWTAuthMiddleware L cfg w (gin.Context L r) =
      authOutcome L cfg w (readToken L r) := by
    rw [middleware.JWTAuthMiddleware_eq, gin.presentedToken_Context L r hparsed]
  refine ⟨hmain, fun value hc hv => ?_, fun hc => ?_, fun hnone => ?_⟩
  · rw [hmain]
    simp [readToken, hc, hv]
  · rw [hmain]
    rcases hc with hc | ⟨value, hc, hv⟩
    · simp [readToken, hc]
    · simp [readToken, hc, hv]
  · rw [hmain, hnone]
    rfl

/-- C12, amended, at the stand-in library: a cookie that unescapes to `a.b.c` is
the token although a bearer header is there, a cookie that does not unescape
leaves the token to the header, and a header of another scheme gives no token. -/
theorem middleware_validates_read_token_witness :
    http.Incoming.Parsed { cookies := [("access_token", "a%2Eb.c")]
                           headers := [("Authorization", "Bearer x.y.z")] } ∧
    readToken sample.lib { cookies := [("access_token", "a%2Eb.c")]
                           headers := [("Authorization", "Bearer x.y.z")] } = some "a.b.c" ∧
    readToken sample.lib { cookies := [("access_token", "%zz")]
                           headers := [("Authorization", "Bearer x.y.z")] } = some "x.y.z" ∧
    readToken sample.lib { cookies := [], headers := [("Authorization", "Basic x")] } = none ∧
    middleware.JWTAuthMiddleware sample.lib sample.defaultConfig sample.world
        (gin.Context sample.lib { cookies := [("access_token", "a%2Eb.c")]
                                  headers := [("Authorization", "Bearer x.y.z")] }) =
      authOutcome sample.lib sample.defaultConfig sample.world (some "a.b.c") :=
  ⟨by decide, by decide, by decide, by decide,
   by
     have h := (middleware_validates_read_token sample.lib sample.defaultConfig sample.world
       { cookies := [("access_token", "a%2Eb.c")]
         headers := [("Authorization", "Bearer x.y.z")] } (by decide)).1
     rw [h]
     rfl⟩
/-! ## C13: failures of the store -/

/-- A lookup by email that the database does not answer fails with the driver
error. -/
theorem repository.FindByEmail_fault (db : DB) (email msg : String)
    (h : db.fault .FindByEmail = some msg) :
    repository.FindByEmail db email = .error (.other msg) := by
  simp [repository.FindByEmail, h]

/-- A lookup by id that the database does not answer fails with the driver
error. -/
theorem repository.FindByID_fault (db : DB) (id : UUID) (msg : String)
    (h : db.fault .FindByID = some msg) :
    repository.FindByID db id = .error (.other msg) := by
  simp [repository.FindByID, h]

/-- C13, as stated, fails: against a database that refuses the connection,
`GetCurrentUser` answers 404 `User not found`, a not-found failure and not the
internal one, whatever the library is. -/
theorem identify_reports_store_failure_as_not_found :
    repository.FindByID sample.downDB 7 =
        .error (.other "dial tcp 127.0.0.1:5432: connect: connection refused") ∧
    ∀ L : Lib, handler.GetCurrentUser L sample.downDB (some 7) =
      { status := 404, body := .failure "User not found" [], cookies := [] } := by
  refine ⟨rfl, fun L => rfl⟩

/-- What `AuthHandler.Login` does when the lookup fails with a driver error: 401
with the text of that error as message. -/
theorem login_store_failure_shows_store_text (L : Lib) (cfg : Config) (w : World) (db : DB)
    (req : dto.LoginRequest) (msg : String)
    (hbind : binding.ShouldBindLogin L (some req) = .ok req)
    (hfault : db.fault .FindByEmail = some msg) :
    handler.Login L cfg w db (some req) =
      { status := 401, body := .failure msg [], cookies := [] } := by
  simp [handler.Login, hbind, service.Login, repository.FindByEmail_fault db _ msg hfault,
    GoError.isRecordNotFound, GoError.Error]

/-- C13, amended: `AuthHandler.Register` answers every error of the service
other than the email-taken one with 500 `Internal server error`, in particular a
lookup that fails with a driver error of another text, and leaves the store as
the service left it; `AuthHandler.RefreshToken` answers a failed lookup of the
subject of a valid token, whatever the error, with 401 `invalid refresh token`;
`AuthHandler.GetCurrentUser` answers a failed lookup, whatever the error, with
404 `User not found`.  None of the three shows the text of the store. -/
theorem store_failures_by_operation (L : Lib) (cfg : Config) (w : World) (db : DB) :
    (∀ req err, binding.ShouldBindRegister L (some req) = .ok req →
      handler.ValidateRegisterRequest req = none →
      (service.Register L cfg w db req).2 = .error err →
      err.Error ≠ "user with this email already exists" →
      handler.Register L cfg w db (some req) =
        ((service.Register L cfg w db req).1,
         { status := 500, body := .failure "Internal server error" [], cookies := [] })) ∧
    (∀ req msg, db.fault .FindByEmail = some msg →
      service.Register L cfg w db req = (db, .error (.other msg))) ∧
    (∀ req refreshToken claims err,
      http.Request.Cookie req constants.CookieRefreshToken = some refreshToken →
      refreshToken ≠ "" →
      utils.ValidateToken L cfg w.now refreshToken true = .ok claims →
      service.ValidateUser db claims.UserID = .error err →
      handler.RefreshToken L cfg w db req =
        { status := 401, body := .failure "invalid refresh token" [], cookies := [] }) ∧
    (∀ userID err, service.ValidateUser db userID = .error err →
      handler.GetCurrentUser L db (some userID) =
        { status := 404, body := .failure "User not found" [], cookies := [] }) := by
  refine ⟨fun req err hbind hpw hsvc hmsg => ?_, fun req msg hfault => ?_,
    fun req refreshToken claims err hc hne hv hu => ?_, fun userID err hu => ?_⟩
  · simp only [handler.Register, hbind, hpw]
    rcases hs : service.Register L cfg w db req with ⟨db1, res⟩
    rw [hs] at hsvc
    simp only at hsvc
    subst hsvc
    simp [hmsg]
  · simp [service.Register, repository.FindByEmail_fault db _ msg hfault,
      GoError.isRecordNotFound]
  · simp [handler.RefreshToken, hc, hne, service.RefreshToken, hv, hu, errorsNew, GoError.Error]
  · simp [handler.GetCurrentUser, hu]

/-- C13, amended, against the database that refuses the connection: the
registration of a valid request is answered with 500 and the generic message. -/
theorem store_failures_by_operation_witness :
    handler.Register sample.lib sample.defaultConfig sample.world sample.downDB
        (some { Name := "Bob", Email := "bob@x.com", Password := "Valid123!" }) =
      (sample.downDB,
       { status := 500, body := .failure "Internal server error" [], cookies := [] }) ∧
    handler.GetCurrentUser sample.lib sample.downDB (some 7) =
      { status := 404, body := .failure "User not found" [], cookies := [] } :=
  have h := store_failures_by_operation sample.lib sample.defaultConfig sample.world
    sample.downDB
  ⟨h.1 { Name := "Bob", Email := "bob@x.com", Password := "Valid123!" }
      (.other "dial tcp 127.0.0.1:5432: connect: connection refused") rfl (by decide) rfl
      (by decide),
   h.2.2.2 7 (.other "dial tcp 127.0.0.1:5432: connect: connection refused") rfl⟩

end VideoVault
